import Mathlib

/-!
Shallow embedding of the everoute agent monitor (`pkg/monitor/agent.go`) and proofs
about its state-synchronization engine: the OVSDB snapshot builder, the IP cache,
the merge against the remote AgentInfo object, and the sync trigger policy.

Modelling conventions:
* Go maps are association lists; lookups find the first matching key and writes
  replace the existing entry in place.
* `metav1.Time` values are modelled as `Nat` timestamps.
* OVSDB numbers (Go `float64`) are modelled as `Int`; the `int32` conversion is an
  explicit two's-complement wrap.
* Go type-assertion panics are a distinct `FetchResult.panicked` outcome, separate
  from returned errors.
* The Go `net.IP` predicates and formatting used by the IP cache are translated
  from the Go standard library (`net/ip.go`).
-/

namespace Everoute

/-- Go map lookup: the first entry with a matching key, if any. -/
def alookup {α : Type} : List (String × α) → String → Option α
  | [], _ => none
  | (k, v) :: rest, key => if k = key then some v else alookup rest key

/-- Go map write `m[key] = val`: replace the value of an existing key, append otherwise. -/
def awrite {α : Type} : List (String × α) → String → α → List (String × α)
  | [], key, val => [(key, val)]
  | (k, v) :: rest, key, val =>
    if k = key then (k, val) :: rest else (k, v) :: awrite rest key val

/-- Go `map[types.IPAddress]metav1.Time`: IP-address strings to discovery timestamps. -/
abbrev IPMap := List (String × Nat)

/-- Go `map[string]map[types.IPAddress]metav1.Time`: the monitor's ipCache, keyed by
the `"<bridge>-<ofport>"` port key. -/
abbrev IPCache := List (String × IPMap)

/-- Lookup inside an optional (possibly nil) Go map: a nil map contains no keys. -/
def ipmLookupO (m : Option IPMap) (k : String) : Option Nat :=
  match m with
  | none => none
  | some l => alookup l k

/-- Raw OVSDB column values as delivered by libovsdb: strings, JSON numbers
(float64 in Go, integral values modelled as `Int`), row references, `OvsSet`
and `OvsMap` wrappers. -/
inductive OVSValue where
  | str (s : String)
  | num (n : Int)
  | uuid (u : String)
  | set (items : List OVSValue)
  | vmap (pairs : List (OVSValue × OVSValue))
deriving Repr

/-- A cached OVSDB row: column name to raw value (`libovsdb.Row.Fields`). -/
structure Row where
  fields : List (String × OVSValue)
deriving Repr

/-- Column access `row.Fields[name]`; a missing column is the nil interface. -/
def Row.fieldGet (r : Row) (name : String) : Option OVSValue :=
  alookup r.fields name

/-- The OVSDB cache: table name to (row uuid to row). A missing table behaves as
an empty Go map. -/
abbrev OVSDBCache := List (String × List (String × Row))

/-- Table lookup `ovsdbCache[table]`; a missing table is the empty map. -/
def tableGet (c : OVSDBCache) (table : String) : List (String × Row) :=
  (alookup c table).getD []

/-- Row lookup `ovsdbCache[table][uuid]`. -/
def rowGet (c : OVSDBCache) (table : String) (uuid : String) : Option Row :=
  alookup (tableGet c table) uuid

/-- Outcome of a Go computation that may return an error value or panic on a
failed type assertion. -/
inductive FetchResult (α : Type) where
  | ok (a : α)
  | err (msg : String)
  | panicked
deriving Repr, DecidableEq

def FetchResult.bind {α β : Type} : FetchResult α → (α → FetchResult β) → FetchResult β
  | .ok a, f => f a
  | .err m, _ => .err m
  | .panicked, _ => .panicked

instance : Monad FetchResult where
  pure := .ok
  bind := FetchResult.bind

/-- Go type assertion `v.(string)`: panics when the column is absent (nil
interface) or holds another type. -/
def assertString : Option OVSValue → FetchResult String
  | some (.str s) => .ok s
  | _ => .panicked

/-- Go comma-ok assertion `v, _ := x.(string)`: the zero value on absence or
type mismatch, never a panic. -/
def tryString : Option OVSValue → String
  | some (.str s) => s
  | _ => ""

/-- Go comma-ok assertion `v, _ := x.(float64)`. -/
def tryNum : Option OVSValue → Int
  | some (.num n) => n
  | _ => 0

mutual

/-- `listUUID`: flatten a reference column that may be a single `UUID`, an
`OvsSet` of references, or anything else (yielding no references). -/
def listUUID : OVSValue → List String
  | .uuid u => [u]
  | .set items => listUUIDList items
  | _ => []

def listUUIDList : List OVSValue → List String
  | [] => []
  | v :: rest => listUUID v ++ listUUIDList rest

end

/-- `listUUID` applied to a possibly missing column (nil interface yields nil). -/
def listUUIDOpt : Option OVSValue → List String
  | none => []
  | some v => listUUID v

/-- `ifHasError`: an interface is faulted exactly when its `error` column is a
non-empty string; a missing or non-string column reports no error. -/
def ifHasError : Option OVSValue → Bool
  | some (.str s) => !(s == "")
  | _ => false

/-- Inner loop of the `external_ids` extraction: assert every key and value is a
string and build the Go map by successive writes. -/
def buildStringMap : List (OVSValue × OVSValue) → List (String × String) →
    FetchResult (List (String × String))
  | [], acc => .ok acc
  | (k, v) :: rest, acc =>
    match k, v with
    | .str ks, .str vs => buildStringMap rest (awrite acc ks vs)
    | _, _ => .panicked

/-- The `external_ids` column: assert it is an `OvsMap` with string keys and
values; panics otherwise. -/
def assertStringMap : Option OVSValue → FetchResult (List (String × String))
  | some (.vmap pairs) => buildStringMap pairs []
  | _ => .panicked

/-- Items of the `trunks` set: each must be a number (`item.(float64)` panics otherwise). -/
def assertNumList : List OVSValue → FetchResult (List Int)
  | [] => .ok []
  | .num n :: rest => (assertNumList rest).bind fun l => .ok (n :: l)
  | _ :: _ => .panicked

/-- The `trunks` column: comma-ok cast to `OvsSet` (absence keeps the nil list),
then a hard numeric assertion on every item. -/
def extractTrunks : Option OVSValue → FetchResult (List Int)
  | some (.set items) => assertNumList items
  | _ => .ok []

/-- Go conversion to `int32`: two's-complement wrap-around on numbers modelled as `Int`. -/
def toInt32 (n : Int) : Int :=
  (n + 2 ^ 31) % 2 ^ 32 - 2 ^ 31

/-- The ipCache port key `fmt.Sprintf("%s-%d", bridgeName, ofport)`. -/
def portKey (bridgeName : String) (ofport : Int) : String :=
  bridgeName ++ "-" ++ toString ofport

/-- Rendering of the trunk list: `fmt.Sprintf` of the slice, split, comma-joined
and trimmed of brackets; the empty list renders as the empty string. -/
def trunkString (trunks : List Int) : String :=
  String.intercalate "," (trunks.map toString)

/-- Modelled from the spec: the package-level enum translation tables
`vlanModeMap` and `bondModeMap` are outside the provided sources; the spec only
records that the VLAN and bond modes are enums derived from the protocol mode
strings, so the tables are modelled as the raw strings themselves. No claim
depends on their values. -/
def vlanModeMap (s : String) : String := s

/-- Modelled from the spec: see `vlanModeMap`. -/
def bondModeMap (s : String) : String := s

/-- `LocalEndpointIdentity`: the external-IDs key carrying the workload-declared MAC. -/
def LocalEndpointIdentity : String := "attached-mac"

structure VlanConfig where
  vlanMode : String := ""
  tag : Int := 0
  trunk : String := ""
deriving Repr, DecidableEq

structure BondConfig where
  bondMode : String := ""
deriving Repr, DecidableEq

structure OVSInterface where
  name : String := ""
  ifType : String := ""
  mac : String := ""
  ofport : Int := 0
  externalIDs : List (String × String) := []
  ipMap : Option IPMap := none
deriving Repr, DecidableEq

structure OVSPort where
  name : String := ""
  externalIDs : List (String × String) := []
  vlanConfig : VlanConfig := {}
  bondConfig : BondConfig := {}
  interfaces : List OVSInterface := []
deriving Repr, DecidableEq

structure OVSBridge where
  name : String := ""
  ports : List OVSPort := []
deriving Repr, DecidableEq

structure OVSInfo where
  version : String := ""
  bridges : List OVSBridge := []
deriving Repr, DecidableEq

structure AgentCondition where
  condType : String := ""
  status : String := ""
  lastHeartbeatTime : Nat := 0
deriving Repr, DecidableEq

structure AgentInfo where
  name : String := ""
  hostname : String := ""
  ovsInfo : OVSInfo := {}
  conditions : List AgentCondition := []
deriving Repr, DecidableEq

/-- `fetchInterfaceLocked`: build one `OVSInterface` from its cached row.
Returns `ok none` (soft skip) when the row is missing from the cache or its
`error` column reports a fault; panics on mistyped `name`, `type` or
`external_ids`; resolves the MAC with `attached-mac` precedence; sets `Ofport`
and attaches the ipCache entry for the `(bridge, ofport)` key only when the
`ofport` column is a non-negative number. The attached `ipMap` is the ipCache
entry itself (in Go the two share one map object). -/
def fetchInterfaceLocked (ovsdbCache : OVSDBCache) (ipCache : IPCache)
    (uuid : String) (bridgeName : String) : FetchResult (Option OVSInterface) :=
  match rowGet ovsdbCache "Interface" uuid with
  | none => .ok none
  | some ovsIface =>
    if ifHasError (ovsIface.fieldGet "error") then .ok none
    else
      (assertString (ovsIface.fieldGet "name")).bind fun name =>
      (assertString (ovsIface.fieldGet "type")).bind fun ifType =>
      (assertStringMap (ovsIface.fieldGet "external_ids")).bind fun extIDs =>
      let mac :=
        match alookup extIDs LocalEndpointIdentity with
        | some m => m
        | none => tryString (ovsIface.fieldGet "mac_in_use")
      let ofportIP : Int × Option IPMap :=
        match ovsIface.fieldGet "ofport" with
        | some (.num f) =>
          if f ≥ 0 then
            (toInt32 f, alookup ipCache (portKey bridgeName (toInt32 f)))
          else (0, none)
        | _ => (0, none)
      .ok (some { name := name, ifType := ifType, mac := mac,
                  ofport := ofportIP.1, externalIDs := extIDs, ipMap := ofportIP.2 })

/-- The interface loop of `fetchPortLocked`: fetch every referenced interface in
order, dropping the soft-skipped ones. -/
def fetchIfaceList (ovsdbCache : OVSDBCache) (ipCache : IPCache)
    (bridgeName : String) : List String → FetchResult (List OVSInterface)
  | [] => .ok []
  | u :: rest =>
    (fetchInterfaceLocked ovsdbCache ipCache u bridgeName).bind fun o =>
    (fetchIfaceList ovsdbCache ipCache bridgeName rest).bind fun l =>
    .ok (match o with | some i => i :: l | none => l)

/-- `fetchPortLocked`: a port row missing from the cache is a hard error; the
`name` and `external_ids` columns are hard assertions; VLAN and bond fields use
permissive comma-ok decoding, except that every present trunk item must be a
number. -/
def fetchPortLocked (ovsdbCache : OVSDBCache) (ipCache : IPCache)
    (uuid : String) (bridgeName : String) : FetchResult OVSPort :=
  match rowGet ovsdbCache "Port" uuid with
  | none => .err ("ovs port " ++ uuid ++ " not found in cache")
  | some ovsPort =>
    (assertString (ovsPort.fieldGet "name")).bind fun name =>
    (assertStringMap (ovsPort.fieldGet "external_ids")).bind fun extIDs =>
    let ovsVlanMode := tryString (ovsPort.fieldGet "vlan_mode")
    let ovsBondMode := tryString (ovsPort.fieldGet "bond_mode")
    let ovsTag := tryNum (ovsPort.fieldGet "tag")
    (extractTrunks (ovsPort.fieldGet "trunks")).bind fun ovsTrunks =>
    (fetchIfaceList ovsdbCache ipCache bridgeName
        (listUUIDOpt (ovsPort.fieldGet "interfaces"))).bind fun ifaces =>
    .ok { name := name, externalIDs := extIDs,
          vlanConfig := { vlanMode := vlanModeMap ovsVlanMode,
                          tag := toInt32 ovsTag, trunk := trunkString ovsTrunks },
          bondConfig := { bondMode := bondModeMap ovsBondMode },
          interfaces := ifaces }

/-- The port loop of `fetchBridgeLocked`: any port error aborts the bridge. -/
def fetchPortList (ovsdbCache : OVSDBCache) (ipCache : IPCache)
    (bridgeName : String) : List String → FetchResult (List OVSPort)
  | [] => .ok []
  | u :: rest =>
    (fetchPortLocked ovsdbCache ipCache u bridgeName).bind fun p =>
    (fetchPortList ovsdbCache ipCache bridgeName rest).bind fun l =>
    .ok (p :: l)

/-- `fetchBridgeLocked`: a bridge row missing from the cache is a hard error;
the `name` column is a hard assertion; ports are fetched from the `ports`
reference column. -/
def fetchBridgeLocked (ovsdbCache : OVSDBCache) (ipCache : IPCache)
    (uuid : String) : FetchResult OVSBridge :=
  match rowGet ovsdbCache "Bridge" uuid with
  | none => .err ("ovs bridge " ++ uuid ++ " not found in cache")
  | some ovsBri =>
    (assertString (ovsBri.fieldGet "name")).bind fun name =>
    (fetchPortList ovsdbCache ipCache name
        (listUUIDOpt (ovsBri.fieldGet "ports"))).bind fun ports =>
    .ok { name := name, ports := ports }

/-- `fetchOvsVersionLocked`: an empty root table is a returned error; otherwise
the first row must carry a string `ovs_version` (hard assertion). -/
def fetchOvsVersionLocked (ovsdbCache : OVSDBCache) : FetchResult String :=
  match tableGet ovsdbCache "Open_vSwitch" with
  | [] => .err "could not find table Open_vSwitch, agentMonitor may not have started"
  | (_, raw) :: _ => assertString (raw.fieldGet "ovs_version")

/-- The bridge loop of `getAgentInfo`: fetch every row of the Bridge table,
wrapping any error. -/
def fetchBridgeRows (ovsdbCache : OVSDBCache) (ipCache : IPCache) :
    List (String × Row) → FetchResult (List OVSBridge)
  | [] => .ok []
  | (uuid, _) :: rest =>
    match fetchBridgeLocked ovsdbCache ipCache uuid with
    | .ok b =>
      (fetchBridgeRows ovsdbCache ipCache rest).bind fun l => .ok (b :: l)
    | .err e => .err ("unable fetch bridge " ++ uuid ++ ": " ++ e)
    | .panicked => .panicked

/-- `getAgentInfo`: build one complete snapshot. The hostname lookup is
best-effort (`none` models a lookup failure); a failing version lookup leaves
the version empty but does not abort; any bridge-level error aborts the build;
a single healthy condition carries the current timestamp. -/
def getAgentInfo (agentName : String) (hostname : Option String) (now : Nat)
    (ovsdbCache : OVSDBCache) (ipCache : IPCache) : FetchResult AgentInfo :=
  match fetchOvsVersionLocked ovsdbCache with
  | .panicked => .panicked
  | vres =>
    let version := match vres with | .ok v => v | _ => ""
    (fetchBridgeRows ovsdbCache ipCache (tableGet ovsdbCache "Bridge")).bind fun bridges =>
    .ok { name := agentName, hostname := hostname.getD "",
          ovsInfo := { version := version, bridges := bridges },
          conditions := [{ condType := "AgentHealthy", status := "True",
                           lastHeartbeatTime := now }] }

/-- `getCpIntf`: in the remote AgentInfo, find the first interface under a
bridge of the given name whose `Ofport` equals the new interface's, and return
a (deep) copy of it. -/
def getCpIntf (bridgeName : String) (newInterface : OVSInterface)
    (cpAgentInfo : AgentInfo) : Option OVSInterface :=
  cpAgentInfo.ovsInfo.bridges.findSome? fun ovsBr =>
    if ovsBr.name == bridgeName then
      ovsBr.ports.findSome? fun port =>
        port.interfaces.find? fun intf => intf.ofport == newInterface.ofport
    else none

/-- The inner loop of `mergeAgentInfo`: append every remote entry whose key is
absent from the (evolving) local map; existing keys are never overwritten. -/
def addAbsent (base : IPMap) : IPMap → IPMap
  | [] => base
  | (k, v) :: rest =>
    if (alookup base k).isSome then addAbsent base rest
    else addAbsent (base ++ [(k, v)]) rest

/-- Successive Go map writes, used when the merge target starts as a fresh map. -/
def writeAll (base : IPMap) : IPMap → IPMap
  | [] => base
  | (k, v) :: rest => writeAll (awrite base k v) rest

/-- One interface step of `mergeAgentInfo`. In Go the snapshot IPMap built by
`fetchInterfaceLocked` is the very map object stored in the monitor's ipCache
for the interface's port key, so the merge's in-place writes are visible in the
ipCache; the threaded `cache` argument models that aliasing. A nil (`none`)
IPMap is replaced by a fresh, unaliased map inside the loop, so it stays nil
when the remote map is empty and never writes back to the cache. -/
def mergeOneIntf (cpAgentInfo : AgentInfo) (bridgeName : String) (cache : IPCache)
    (intf : OVSInterface) : OVSInterface × IPCache :=
  match getCpIntf bridgeName intf cpAgentInfo with
  | none => (intf, cache)
  | some matchIntf =>
    let src := matchIntf.ipMap.getD []
    match intf.ipMap with
    | none =>
      if src.isEmpty then (intf, cache)
      else ({ intf with ipMap := some (writeAll [] src) }, cache)
    | some captured =>
      let key := portKey bridgeName intf.ofport
      match alookup cache key with
      | some shared =>
        let merged := addAbsent shared src
        ({ intf with ipMap := some merged }, awrite cache key merged)
      | none =>
        ({ intf with ipMap := some (addAbsent captured src) }, cache)

def mergeIntfList (cpAgentInfo : AgentInfo) (bridgeName : String) :
    List OVSInterface → IPCache → List OVSInterface × IPCache
  | [], cache => ([], cache)
  | intf :: rest, cache =>
    let ic := mergeOneIntf cpAgentInfo bridgeName cache intf
    let rc := mergeIntfList cpAgentInfo bridgeName rest ic.2
    (ic.1 :: rc.1, rc.2)

def mergePortList (cpAgentInfo : AgentInfo) (bridgeName : String) :
    List OVSPort → IPCache → List OVSPort × IPCache
  | [], cache => ([], cache)
  | port :: rest, cache =>
    let ic := mergeIntfList cpAgentInfo bridgeName port.interfaces cache
    let rc := mergePortList cpAgentInfo bridgeName rest ic.2
    ({ port with interfaces := ic.1 } :: rc.1, rc.2)

def mergeBridgeList (cpAgentInfo : AgentInfo) :
    List OVSBridge → IPCache → List OVSBridge × IPCache
  | [], cache => ([], cache)
  | br :: rest, cache =>
    let pc := mergePortList cpAgentInfo br.name br.ports cache
    let rc := mergeBridgeList cpAgentInfo rest pc.2
    ({ br with ports := pc.1 } :: rc.1, rc.2)

/-- `mergeAgentInfo`: walk every interface of the freshly built snapshot, locate
its match in the remote AgentInfo by `(bridgeName, Ofport)` and copy forward
every remote IP-map key absent locally. The returned `IPCache` is the
monitor's ipCache after the merge's aliased in-place writes. -/
def mergeAgentInfo (localAgentInfo cpAgentInfo : AgentInfo) (cache : IPCache) :
    AgentInfo × IPCache :=
  let bc := mergeBridgeList cpAgentInfo localAgentInfo.ovsInfo.bridges cache
  ({ localAgentInfo with
      ovsInfo := { localAgentInfo.ovsInfo with bridges := bc.1 } }, bc.2)

/-- Outcome of the remote AgentInfo read (`k8sClientGet`). -/
inductive GetResult where
  | found (agentInfo : AgentInfo)
  | notFound
  | getErr
deriving Repr

/-- The triple loop of `shouldSyncOnLearnIPLocked` over one remote AgentInfo:
`none` models the early `return true` (some cached address for a matching port
key is absent from the remote interface map); otherwise `some count` holds the
number of interface positions whose port key appears in the ipCache. -/
def shouldSyncScanIntfs (ipc : IPCache) (bridgeName : String) :
    List OVSInterface → Nat → Option Nat
  | [], count => some count
  | iface :: rest, count =>
    match alookup ipc (portKey bridgeName iface.ofport) with
    | none => shouldSyncScanIntfs ipc bridgeName rest count
    | some cacheIPMap =>
      if cacheIPMap.any fun kv => (ipmLookupO iface.ipMap kv.1).isNone then none
      else shouldSyncScanIntfs ipc bridgeName rest (count + 1)

def shouldSyncScanPorts (ipc : IPCache) (bridgeName : String) :
    List OVSPort → Nat → Option Nat
  | [], count => some count
  | port :: rest, count =>
    match shouldSyncScanIntfs ipc bridgeName port.interfaces count with
    | none => none
    | some c2 => shouldSyncScanPorts ipc bridgeName rest c2

def shouldSyncScanBridges (ipc : IPCache) :
    List OVSBridge → Nat → Option Nat
  | [], count => some count
  | br :: rest, count =>
    match shouldSyncScanPorts ipc br.name br.ports count with
    | none => none
    | some c2 => shouldSyncScanBridges ipc rest c2

/-- `shouldSyncOnLearnIPLocked`: `true` when the remote read fails (including
not-found), when some cached address for a matching port key is absent from the
remote interface's IP map, or when the number of matched interface positions
differs from the number of ipCache entries. -/
def shouldSyncOnLearnIPLocked (ipc : IPCache) (fetched : GetResult) : Bool :=
  match fetched with
  | .found agentInfo =>
    match shouldSyncScanBridges ipc agentInfo.ovsInfo.bridges 0 with
    | none => true
    | some count => !(count == ipc.length)
  | _ => true

/-- Go `net.IP`: a byte slice, 4 bytes for IPv4 or 16 bytes for IPv6 /
IPv4-in-IPv6 form. -/
abbrev NetIP := List Nat

/-- The 12-byte prefix of an IPv4 address embedded in IPv6 form. -/
def v4InV6Prefix : List Nat := [0, 0, 0, 0, 0, 0, 0, 0, 0, 0, 255, 255]

/-- Go `net.IPv4`: the 16-byte IPv4-in-IPv6 representation. -/
def mkIPv4 (a b c d : Nat) : NetIP := v4InV6Prefix ++ [a, b, c, d]

def isZeros (l : List Nat) : Bool := l.all (· == 0)

/-- Go `IP.To4`: the 4-byte form when the address is IPv4 or IPv4-in-IPv6. -/
def ipTo4 (ip : NetIP) : Option (List Nat) :=
  if ip.length == 4 then some ip
  else if ip.length == 16 && isZeros (ip.take 10)
      && ip.getD 10 0 == 255 && ip.getD 11 0 == 255 then
    some (ip.drop 12)
  else none

/-- Go `IP.Equal`: byte equality up to the IPv4-in-IPv6 embedding. -/
def ipEqual (ip x : NetIP) : Bool :=
  if ip.length == x.length then ip == x
  else if ip.length == 4 && x.length == 16 then
    x.take 12 == v4InV6Prefix && x.drop 12 == ip
  else if ip.length == 16 && x.length == 4 then
    ip.take 12 == v4InV6Prefix && ip.drop 12 == x
  else false

/-- Go `IP.IsUnspecified`. -/
def ipIsUnspecified (ip : NetIP) : Bool :=
  ipEqual ip (mkIPv4 0 0 0 0) || ipEqual ip (List.replicate 16 0)

/-- Go `IP.IsLoopback`. -/
def ipIsLoopback (ip : NetIP) : Bool :=
  match ipTo4 ip with
  | some p4 => p4.getD 0 0 == 127
  | none => ipEqual ip (List.replicate 15 0 ++ [1])

/-- Go `IP.IsMulticast`: `ip4[0] & 0xf0 == 0xe0` for IPv4, leading `0xff` for IPv6. -/
def ipIsMulticast (ip : NetIP) : Bool :=
  match ipTo4 ip with
  | some p4 => p4.getD 0 0 / 16 == 14
  | none => ip.length == 16 && ip.getD 0 0 == 255

/-- Go `IP.IsLinkLocalUnicast`: `169.254.0.0/16` for IPv4, `fe80::/10` for IPv6. -/
def ipIsLinkLocalUnicast (ip : NetIP) : Bool :=
  match ipTo4 ip with
  | some p4 => p4.getD 0 0 == 169 && p4.getD 1 0 == 254
  | none => ip.length == 16 && ip.getD 0 0 == 254 && ip.getD 1 0 / 64 == 2

/-- Go `IP.IsGlobalUnicast`. -/
def ipIsGlobalUnicast (ip : NetIP) : Bool :=
  (ip.length == 4 || ip.length == 16)
  && !(ipEqual ip (mkIPv4 255 255 255 255))
  && !(ipIsUnspecified ip)
  && !(ipIsLoopback ip)
  && !(ipIsMulticast ip)
  && !(ipIsLinkLocalUnicast ip)

/-- Lowercase hexadecimal rendering without leading zeros (Go `appendHex`). -/
def natToHex (n : Nat) : String := String.mk (Nat.toDigits 16 n)

/-- Go `hexString`: two lowercase hex digits per byte. -/
def hexString (b : List Nat) : String :=
  String.join (b.map fun tn => String.mk [Nat.digitChar (tn / 16), Nat.digitChar (tn % 16)])

/-- The eight 16-bit groups of a 16-byte address. -/
def toGroups : List Nat → List Nat
  | a :: b :: rest => (a * 256 + b) :: toGroups rest
  | _ => []

/-- Length of the leading run of zero groups. -/
def runLen : List Nat → Nat
  | 0 :: rest => runLen rest + 1
  | _ => 0

/-- All maximal runs of zero groups with their start positions. -/
def zeroRuns : List Nat → Nat → List (Nat × Nat)
  | [], _ => []
  | 0 :: rest, i =>
    let l := runLen rest + 1
    (i, l) :: zeroRuns (rest.drop (l - 1)) (i + l)
  | _ :: rest, i => zeroRuns rest (i + 1)
termination_by gs _ => gs.length
decreasing_by
  · simp only [List.length_cons]
    have := List.length_drop (runLen rest + 1 - 1) rest
    omega
  · simp

/-- The run elided by `::` per RFC 5952 as implemented in Go `IP.String`: the
earliest longest zero run, only when it spans at least two groups. -/
def bestZeroRun (gs : List Nat) : Option (Nat × Nat) :=
  let best := (zeroRuns gs 0).foldl
    (fun acc r => match acc with
      | none => some r
      | some b => if r.2 > b.2 then some r else some b)
    none
  match best with
  | some b => if b.2 ≥ 2 then some b else none
  | none => none

/-- IPv6 rendering with `::` elision (the body of Go `IP.String`). -/
def renderIP6 (gs : List Nat) : String :=
  match bestZeroRun gs with
  | none => String.intercalate ":" (gs.map natToHex)
  | some r =>
    String.intercalate ":" ((gs.take r.1).map natToHex) ++ "::"
      ++ String.intercalate ":" ((gs.drop (r.1 + r.2)).map natToHex)

/-- Go `IP.String`: dotted decimal for IPv4 forms, RFC 5952 for IPv6, a hex
dump for other lengths. -/
def ipString (ip : NetIP) : String :=
  if ip.length == 0 then "<nil>"
  else
    match ipTo4 ip with
    | some p4 => String.intercalate "." (p4.map toString)
    | none =>
      if !(ip.length == 16) then "?" ++ hexString ip
      else renderIP6 (toGroups ip)

/-- `updateOfPortIPAddress`: fold one learning batch into the ipCache. Each
non-global-unicast address is discarded; otherwise the port's whole map is
replaced by the single-entry map `{address: now}`. The returned Bool is the
result of `shouldSyncOnLearnIPLocked` on the updated cache, i.e. whether the
agent is enqueued for an immediate sync. -/
def updateOfPortIPAddress (now : Nat) (ipc : IPCache) (fetched : GetResult)
    (localEndpointInfo : List (String × NetIP)) : IPCache × Bool :=
  let cache2 := localEndpointInfo.foldl
    (fun c kv =>
      if ipIsGlobalUnicast kv.2 then awrite c kv.1 [(ipString kv.2, now)] else c)
    ipc
  (cache2, shouldSyncOnLearnIPLocked cache2 fetched)

/-- Outcome of one `syncAgentInfo` attempt together with the ipCache it leaves
behind. On the update path, `persisted` is the merged object whose metadata
was overwritten with the remote object's. -/
inductive SyncResult where
  | success (persisted : AgentInfo) (cache : IPCache)
  | failure (msg : String) (cache : IPCache)
  | panicked
deriving Repr, DecidableEq

/-- `syncAgentInfo`: one sync attempt. Build the snapshot; on build error fail
and keep the cache. If the remote object is absent, create the fresh snapshot:
success keeps the cache unchanged (the code returns before the cache-clearing
line). If the remote read fails, fail and keep the cache. Otherwise merge (the
merge's aliased writes already land in the ipCache), update: success clears the
whole cache, failure keeps the merged cache. `createOK` and `updateOK` model
the outcome of the remote Create and Update calls. -/
def syncAgentInfo (agentName : String) (hostname : Option String) (now : Nat)
    (ovsdbCache : OVSDBCache) (ipc : IPCache)
    (remote : GetResult) (createOK updateOK : Bool) : SyncResult :=
  match getAgentInfo agentName hostname now ovsdbCache ipc with
  | .panicked => .panicked
  | .err e => .failure ("could not get agentinfo: " ++ e) ipc
  | .ok agentInfo =>
    match remote with
    | .notFound =>
      if createOK then .success agentInfo ipc
      else .failure ("could not create agent " ++ agentName ++ " agentinfo") ipc
    | .getErr => .failure ("could not fetch agent " ++ agentName ++ " agentinfo") ipc
    | .found originAgentInfo =>
      let mc := mergeAgentInfo agentInfo originAgentInfo ipc
      if updateOK then .success { mc.1 with name := originAgentInfo.name } []
      else .failure "could not update agentinfo" mc.2

/-! ### Basic association-list lemmas -/

theorem alookup_awrite {α : Type} (l : List (String × α)) (k : String) (v : α)
    (k' : String) :
    alookup (awrite l k v) k' = if k = k' then some v else alookup l k' := by
  induction l with
  | nil => simp [awrite, alookup]
  | cons hd tl ih =>
    obtain ⟨hk, hv⟩ := hd
    simp only [awrite]
    by_cases h : hk = k
    · subst h
      simp only [if_pos rfl]
      by_cases h' : hk = k' <;> simp [alookup, h']
    · simp only [if_neg h]
      by_cases h' : hk = k'
      · have hkk : ¬k = k' := fun he => h (h'.trans he.symm)
        simp [alookup, h', hkk]
      · simp [alookup, h', ih]

theorem alookup_append_single {α : Type} (l : List (String × α)) (k0 : String)
    (v0 : α) (k : String) :
    alookup (l ++ [(k0, v0)]) k =
      match alookup l k with
      | some v => some v
      | none => if k0 = k then some v0 else none := by
  induction l with
  | nil => simp [alookup]
  | cons hd tl ih =>
    obtain ⟨hk, hv⟩ := hd
    by_cases h : hk = k
    · simp [alookup, h]
    · simp [alookup, h, ih]

/-- Lookup specification of the merge's append-if-absent loop: the local map
always wins, and remote entries fill only the missing keys. -/
theorem alookup_addAbsent (src : IPMap) : ∀ (base : IPMap) (k : String),
    alookup (addAbsent base src) k =
      match alookup base k with
      | some v => some v
      | none => alookup src k := by
  induction src with
  | nil =>
    intro base k
    cases h : alookup base k <;> simp [addAbsent, alookup, h]
  | cons hd tl ih =>
    intro base k
    obtain ⟨k0, v0⟩ := hd
    by_cases h0 : (alookup base k0).isSome
    · obtain ⟨w, hw⟩ := Option.isSome_iff_exists.mp h0
      simp only [addAbsent, hw, Option.isSome_some, if_pos]
      rw [ih]
      cases h : alookup base k with
      | some v => simp
      | none =>
        simp only [alookup]
        have : ¬k0 = k := fun he => by rw [he, h] at hw; exact Option.noConfusion hw
        simp [this]
    · have h0' : alookup base k0 = none := Option.not_isSome_iff_eq_none.mp h0
      simp only [addAbsent, h0', Option.isSome_none, Bool.false_eq_true, if_neg,
        not_false_iff]
      rw [ih]
      rw [alookup_append_single]
      cases h : alookup base k with
      | some v => simp
      | none =>
        simp only [alookup]
        by_cases hk : k0 = k
        · simp [hk]
        · simp [hk]

theorem alookup_eq_none_of_not_mem {α : Type} (l : List (String × α)) (k : String)
    (h : k ∉ l.map Prod.fst) : alookup l k = none := by
  induction l with
  | nil => simp [alookup]
  | cons hd tl ih =>
    obtain ⟨hk, hv⟩ := hd
    simp only [List.map_cons, List.mem_cons] at h
    push_neg at h
    have hne : ¬hk = k := fun he => h.1 he.symm
    simp only [alookup, if_neg hne]
    exact ih h.2

/-- Lookup specification of the write loop used on a fresh merge target, for
source maps without duplicate keys (Go maps never have them). -/
theorem alookup_writeAll (src : IPMap) : ∀ (base : IPMap) (k : String),
    (src.map Prod.fst).Nodup →
    alookup (writeAll base src) k =
      match alookup src k with
      | some v => some v
      | none => alookup base k := by
  induction src with
  | nil =>
    intro base k _
    cases h : alookup base k <;> simp [writeAll, alookup, h]
  | cons hd tl ih =>
    intro base k hnd
    obtain ⟨k0, v0⟩ := hd
    simp only [List.map_cons, List.nodup_cons] at hnd
    obtain ⟨hk0, hnd'⟩ := hnd
    simp only [writeAll]
    rw [ih _ _ hnd']
    by_cases hk : k0 = k
    · subst hk
      have htl : alookup tl k0 = none := alookup_eq_none_of_not_mem _ _ hk0
      simp [alookup, htl, alookup_awrite]
    · simp only [alookup, if_neg hk]
      cases h : alookup tl k with
      | some v => simp
      | none => simp [alookup_awrite, hk]

/-! ### Reduction of `fetchInterfaceLocked` on well-typed rows -/

/-- The ofport/IPMap resolution step of `fetchInterfaceLocked`, named so that
theorems can speak about it. -/
def resolveOfport (ipCache : IPCache) (bridgeName : String)
    (v : Option OVSValue) : Int × Option IPMap :=
  match v with
  | some (.num f) =>
    if f ≥ 0 then (toInt32 f, alookup ipCache (portKey bridgeName (toInt32 f)))
    else (0, none)
  | _ => (0, none)

/-- The MAC resolution step of `fetchInterfaceLocked`. -/
def resolveMac (extIDs : List (String × String)) (macInUse : Option OVSValue) : String :=
  match alookup extIDs LocalEndpointIdentity with
  | some m => m
  | none => tryString macInUse

theorem fetchInterfaceLocked_eq_ok (c : OVSDBCache) (ipc : IPCache) (u bn : String)
    (row : Row) (nm ty : String) (pairs : List (OVSValue × OVSValue))
    (ext : List (String × String))
    (hrow : rowGet c "Interface" u = some row)
    (herr : ifHasError (row.fieldGet "error") = false)
    (hname : row.fieldGet "name" = some (.str nm))
    (hty : row.fieldGet "type" = some (.str ty))
    (hext : row.fieldGet "external_ids" = some (.vmap pairs))
    (hbuild : buildStringMap pairs [] = .ok ext) :
    fetchInterfaceLocked c ipc u bn = .ok (some
      { name := nm, ifType := ty,
        mac := resolveMac ext (row.fieldGet "mac_in_use"),
        ofport := (resolveOfport ipc bn (row.fieldGet "ofport")).1,
        externalIDs := ext,
        ipMap := (resolveOfport ipc bn (row.fieldGet "ofport")).2 }) := by
  simp [fetchInterfaceLocked, hrow, herr, hname, hty, hext, hbuild, assertString,
    assertStringMap, FetchResult.bind, resolveMac, resolveOfport]

/-! ### C7: interface drop on error -/

/-- C7: for every OVSDB cache state, an interface row whose error column is a
non-empty string is absent from the built snapshot (the fetch soft-skips it),
while an interface whose error column is absent, non-string, or the empty
string is kept (the fetch returns an interface). -/
theorem c7_interface_drop_on_error :
    (∀ (c : OVSDBCache) (ipc : IPCache) (u bn : String) (row : Row) (s : String),
      rowGet c "Interface" u = some row →
      row.fieldGet "error" = some (.str s) → s ≠ "" →
      fetchInterfaceLocked c ipc u bn = .ok none)
    ∧
    (∀ (c : OVSDBCache) (ipc : IPCache) (u bn : String) (row : Row)
      (nm ty : String) (pairs : List (OVSValue × OVSValue))
      (ext : List (String × String)),
      rowGet c "Interface" u = some row →
      (row.fieldGet "error" = none ∨
        (∃ v, row.fieldGet "error" = some v ∧ ∀ s, v ≠ OVSValue.str s) ∨
        row.fieldGet "error" = some (.str "")) →
      row.fieldGet "name" = some (.str nm) →
      row.fieldGet "type" = some (.str ty) →
      row.fieldGet "external_ids" = some (.vmap pairs) →
      buildStringMap pairs [] = .ok ext →
      ∃ i, fetchInterfaceLocked c ipc u bn = .ok (some i)) := by
  constructor
  · intro c ipc u bn row s hrow herr hs
    have h : ifHasError (row.fieldGet "error") = true := by
      simp [ifHasError, herr, hs]
    simp [fetchInterfaceLocked, hrow, h]
  · intro c ipc u bn row nm ty pairs ext hrow herr hname hty hext hbuild
    have h : ifHasError (row.fieldGet "error") = false := by
      rcases herr with h0 | ⟨v, hv, hvs⟩ | h0
      · simp [ifHasError, h0]
      · rw [hv]
        cases v with
        | str s => exact absurd rfl (hvs s)
        | num n => simp [ifHasError]
        | uuid u => simp [ifHasError]
        | set l => simp [ifHasError]
        | vmap l => simp [ifHasError]
      · simp [ifHasError, h0]
    exact ⟨_, fetchInterfaceLocked_eq_ok c ipc u bn row nm ty pairs ext
      hrow h hname hty hext hbuild⟩

/-- C7 witness: a concrete healthy cache-free check of both conjuncts. -/
theorem c7_interface_drop_on_error_witness :
    fetchInterfaceLocked
        [("Interface", [("u1", ⟨[("name", .str "eth0"), ("type", .str ""),
          ("external_ids", .vmap []), ("error", .str "broken")]⟩)])] [] "u1" "br0"
      = .ok none
    ∧ ∃ i, fetchInterfaceLocked
        [("Interface", [("u2", ⟨[("name", .str "eth1"), ("type", .str ""),
          ("external_ids", .vmap []), ("error", .set [])]⟩)])] [] "u2" "br0"
      = .ok (some i) := by
  constructor
  · exact c7_interface_drop_on_error.1 _ _ "u1" "br0"
      ⟨[("name", .str "eth0"), ("type", .str ""),
        ("external_ids", .vmap []), ("error", .str "broken")]⟩ "broken"
      rfl rfl (by decide)
  · exact c7_interface_drop_on_error.2 _ _ "u2" "br0"
      ⟨[("name", .str "eth1"), ("type", .str ""),
        ("external_ids", .vmap []), ("error", .set [])]⟩ "eth1" "" [] []
      rfl (Or.inr (Or.inl ⟨.set [], rfl, fun s h => by cases h⟩))
      rfl rfl rfl rfl

/-! ### C8: ofport validity gates IP attachment -/

/-- C8: for every interface row (healthy and well typed), the built interface
gets its Ofport set and its IPMap bound to the ipCache entry for the
`"<bridge>-<ofport>"` key exactly when the ofport column is present as a
non-negative number; otherwise Ofport stays at its zero value and no ipCache
entry is attached. -/
theorem c8_ofport_gates_ip_attachment :
    ∀ (c : OVSDBCache) (ipc : IPCache) (u bn : String) (row : Row)
      (nm ty : String) (pairs : List (OVSValue × OVSValue))
      (ext : List (String × String)),
      rowGet c "Interface" u = some row →
      ifHasError (row.fieldGet "error") = false →
      row.fieldGet "name" = some (.str nm) →
      row.fieldGet "type" = some (.str ty) →
      row.fieldGet "external_ids" = some (.vmap pairs) →
      buildStringMap pairs [] = .ok ext →
      (∀ f : Int, row.fieldGet "ofport" = some (.num f) → 0 ≤ f →
        ∃ i, fetchInterfaceLocked c ipc u bn = .ok (some i) ∧
          i.ofport = toInt32 f ∧
          i.ipMap = alookup ipc (portKey bn (toInt32 f)))
      ∧
      ((match row.fieldGet "ofport" with
        | some (.num f) => f < 0
        | _ => True) →
        ∃ i, fetchInterfaceLocked c ipc u bn = .ok (some i) ∧
          i.ofport = 0 ∧ i.ipMap = none) := by
  intro c ipc u bn row nm ty pairs ext hrow herr hname hty hext hbuild
  have hmain := fetchInterfaceLocked_eq_ok c ipc u bn row nm ty pairs ext
    hrow herr hname hty hext hbuild
  constructor
  · intro f hof hf
    refine ⟨_, hmain, ?_, ?_⟩ <;> simp [resolveOfport, hof, hf]
  · intro hneg
    refine ⟨_, hmain, ?_, ?_⟩ <;>
    · cases hof : row.fieldGet "ofport" with
      | none => simp [resolveOfport, hof]
      | some v =>
        cases v with
        | num f =>
          rw [hof] at hneg
          simp only [resolveOfport, hof]
          have : ¬f ≥ 0 := by omega
          simp [this]
        | str s => simp [resolveOfport, hof]
        | uuid x => simp [resolveOfport, hof]
        | set l => simp [resolveOfport, hof]
        | vmap l => simp [resolveOfport, hof]

/-- C8 witness: both gates exercised on concrete rows. -/
theorem c8_ofport_gates_ip_attachment_witness :
    (∃ i, fetchInterfaceLocked
        [("Interface", [("u1", ⟨[("name", .str "eth0"), ("type", .str ""),
          ("external_ids", .vmap []), ("ofport", .num 5)]⟩)])]
        [("br0-5", [("10.0.0.1", 7)])] "u1" "br0"
      = .ok (some i) ∧ i.ofport = toInt32 5 ∧
        i.ipMap = alookup [("br0-5", [("10.0.0.1", 7)])] (portKey "br0" (toInt32 5)))
    ∧
    (∃ i, fetchInterfaceLocked
        [("Interface", [("u2", ⟨[("name", .str "eth1"), ("type", .str ""),
          ("external_ids", .vmap []), ("ofport", .set [])]⟩)])]
        [("br0-0", [("10.0.0.1", 7)])] "u2" "br0"
      = .ok (some i) ∧ i.ofport = 0 ∧ i.ipMap = none) := by
  constructor
  · exact (c8_ofport_gates_ip_attachment
      [("Interface", [("u1", ⟨[("name", .str "eth0"), ("type", .str ""),
        ("external_ids", .vmap []), ("ofport", .num 5)]⟩)])]
      [("br0-5", [("10.0.0.1", 7)])] "u1" "br0"
      ⟨[("name", .str "eth0"), ("type", .str ""),
        ("external_ids", .vmap []), ("ofport", .num 5)]⟩ "eth0" "" [] []
      rfl rfl rfl rfl rfl rfl).1 5 rfl (by decide)
  · exact (c8_ofport_gates_ip_attachment
      [("Interface", [("u2", ⟨[("name", .str "eth1"), ("type", .str ""),
        ("external_ids", .vmap []), ("ofport", .set [])]⟩)])]
      [("br0-0", [("10.0.0.1", 7)])] "u2" "br0"
      ⟨[("name", .str "eth1"), ("type", .str ""),
        ("external_ids", .vmap []), ("ofport", .set [])]⟩ "eth1" "" [] []
      rfl rfl rfl rfl rfl rfl).2 (by simp [Row.fieldGet, alookup])

/-! ### C9: MAC resolution precedence -/

/-- C9: for every interface row (healthy and well typed), the built interface's
Mac is the `attached-mac` external ID when present; otherwise the `mac_in_use`
column when it is a string; and the empty string when that column is absent. -/
theorem c9_mac_resolution_precedence :
    ∀ (c : OVSDBCache) (ipc : IPCache) (u bn : String) (row : Row)
      (nm ty : String) (pairs : List (OVSValue × OVSValue))
      (ext : List (String × String)),
      rowGet c "Interface" u = some row →
      ifHasError (row.fieldGet "error") = false →
      row.fieldGet "name" = some (.str nm) →
      row.fieldGet "type" = some (.str ty) →
      row.fieldGet "external_ids" = some (.vmap pairs) →
      buildStringMap pairs [] = .ok ext →
      (∀ m, alookup ext LocalEndpointIdentity = some m →
        ∃ i, fetchInterfaceLocked c ipc u bn = .ok (some i) ∧ i.mac = m)
      ∧
      (alookup ext LocalEndpointIdentity = none →
       ∀ s, row.fieldGet "mac_in_use" = some (.str s) →
        ∃ i, fetchInterfaceLocked c ipc u bn = .ok (some i) ∧ i.mac = s)
      ∧
      (alookup ext LocalEndpointIdentity = none →
       row.fieldGet "mac_in_use" = none →
        ∃ i, fetchInterfaceLocked c ipc u bn = .ok (some i) ∧ i.mac = "") := by
  intro c ipc u bn row nm ty pairs ext hrow herr hname hty hext hbuild
  have hmain := fetchInterfaceLocked_eq_ok c ipc u bn row nm ty pairs ext
    hrow herr hname hty hext hbuild
  refine ⟨?_, ?_, ?_⟩
  · intro m hm
    exact ⟨_, hmain, by simp [resolveMac, hm]⟩
  · intro hm s hs
    exact ⟨_, hmain, by simp [resolveMac, hm, hs, tryString]⟩
  · intro hm hs
    exact ⟨_, hmain, by simp [resolveMac, hm, hs, tryString]⟩

/-- C9 witness: all three precedence branches on concrete rows. -/
theorem c9_mac_resolution_precedence_witness :
    (∃ i, fetchInterfaceLocked
        [("Interface", [("u1", ⟨[("name", .str "e0"), ("type", .str ""),
          ("external_ids", .vmap [(.str "attached-mac", .str "aa:bb")]),
          ("mac_in_use", .str "cc:dd")]⟩)])] [] "u1" "br0"
      = .ok (some i) ∧ i.mac = "aa:bb")
    ∧
    (∃ i, fetchInterfaceLocked
        [("Interface", [("u2", ⟨[("name", .str "e1"), ("type", .str ""),
          ("external_ids", .vmap []), ("mac_in_use", .str "cc:dd")]⟩)])] [] "u2" "br0"
      = .ok (some i) ∧ i.mac = "cc:dd")
    ∧
    (∃ i, fetchInterfaceLocked
        [("Interface", [("u3", ⟨[("name", .str "e2"), ("type", .str ""),
          ("external_ids", .vmap [])]⟩)])] [] "u3" "br0"
      = .ok (some i) ∧ i.mac = "") := by
  refine ⟨?_, ?_, ?_⟩
  · exact (c9_mac_resolution_precedence
      [("Interface", [("u1", ⟨[("name", .str "e0"), ("type", .str ""),
        ("external_ids", .vmap [(.str "attached-mac", .str "aa:bb")]),
        ("mac_in_use", .str "cc:dd")]⟩)])] [] "u1" "br0"
      ⟨[("name", .str "e0"), ("type", .str ""),
        ("external_ids", .vmap [(.str "attached-mac", .str "aa:bb")]),
        ("mac_in_use", .str "cc:dd")]⟩ "e0" "" [(.str "attached-mac", .str "aa:bb")]
      [("attached-mac", "aa:bb")]
      rfl rfl rfl rfl rfl rfl).1 "aa:bb" rfl
  · exact (c9_mac_resolution_precedence
      [("Interface", [("u2", ⟨[("name", .str "e1"), ("type", .str ""),
        ("external_ids", .vmap []), ("mac_in_use", .str "cc:dd")]⟩)])] [] "u2" "br0"
      ⟨[("name", .str "e1"), ("type", .str ""),
        ("external_ids", .vmap []), ("mac_in_use", .str "cc:dd")]⟩ "e1" "" [] []
      rfl rfl rfl rfl rfl rfl).2.1 rfl "cc:dd" rfl
  · exact (c9_mac_resolution_precedence
      [("Interface", [("u3", ⟨[("name", .str "e2"), ("type", .str ""),
        ("external_ids", .vmap [])]⟩)])] [] "u3" "br0"
      ⟨[("name", .str "e2"), ("type", .str ""),
        ("external_ids", .vmap [])]⟩ "e2" "" [] []
      rfl rfl rfl rfl rfl rfl).2.2 rfl rfl

/-! ### C6: learning-batch semantics -/

/-- One write step of the learning-batch fold, named for the lemmas below. -/
def learnStep (now : Nat) (c : IPCache) (kv : String × NetIP) : IPCache :=
  if ipIsGlobalUnicast kv.2 then awrite c kv.1 [(ipString kv.2, now)] else c

theorem updateOfPortIPAddress_cache_eq (now : Nat) (ipc : IPCache)
    (fetched : GetResult) (batch : List (String × NetIP)) :
    (updateOfPortIPAddress now ipc fetched batch).1 = batch.foldl (learnStep now) ipc :=
  rfl

theorem learn_fold_lookup (now : Nat) (batch : List (String × NetIP)) :
    ∀ (ipc : IPCache) (k : String), (batch.map Prod.fst).Nodup →
    alookup (batch.foldl (learnStep now) ipc) k =
      match alookup batch k with
      | some ip => if ipIsGlobalUnicast ip then some [(ipString ip, now)] else alookup ipc k
      | none => alookup ipc k := by
  induction batch with
  | nil => intro ipc k _; simp [alookup]
  | cons hd tl ih =>
    intro ipc k hnd
    obtain ⟨k0, ip0⟩ := hd
    simp only [List.map_cons, List.nodup_cons] at hnd
    obtain ⟨hk0, hnd'⟩ := hnd
    simp only [List.foldl_cons]
    rw [ih _ _ hnd']
    by_cases hk : k0 = k
    · subst hk
      have htl : alookup tl k0 = none := alookup_eq_none_of_not_mem _ _ hk0
      simp only [htl, alookup, if_pos rfl]
      by_cases hg : ipIsGlobalUnicast ip0 = true
      · simp [learnStep, hg, alookup_awrite]
      · simp only [Bool.not_eq_true] at hg
        simp [learnStep, hg]
    · have hstep : alookup (learnStep now ipc (k0, ip0)) k = alookup ipc k := by
        by_cases hg0 : ipIsGlobalUnicast ip0 = true
        · simp [learnStep, hg0, alookup_awrite, hk]
        · simp only [Bool.not_eq_true] at hg0
          simp [learnStep, hg0]
      simp only [alookup, if_neg hk]
      cases htl : alookup tl k with
      | some ip =>
        simp only []
        rw [hstep]
      | none =>
        simp only []
        exact hstep

theorem learn_fold_provenance (now : Nat) (batch : List (String × NetIP)) :
    ∀ (ipc : IPCache) (k : String) (m : IPMap),
    alookup (batch.foldl (learnStep now) ipc) k = some m →
    ∀ p ∈ m, (∃ m0, alookup ipc k = some m0 ∧ p ∈ m0) ∨
      (∃ ip, (k, ip) ∈ batch ∧ ipIsGlobalUnicast ip = true ∧
        p.1 = ipString ip ∧ p.2 = now) := by
  induction batch with
  | nil =>
    intro ipc k m hm p hp
    exact Or.inl ⟨m, hm, hp⟩
  | cons hd tl ih =>
    intro ipc k m hm p hp
    obtain ⟨k0, ip0⟩ := hd
    simp only [List.foldl_cons] at hm
    rcases ih _ _ _ hm p hp with ⟨m0, hm0, hpm0⟩ | ⟨ip, hmem, hg, hs, hn⟩
    · by_cases hg : ipIsGlobalUnicast ip0 = true
      · simp only [learnStep, hg, if_pos] at hm0
        rw [alookup_awrite] at hm0
        by_cases hk : k0 = k
        · rw [if_pos hk] at hm0
          have hm0' : m0 = [(ipString ip0, now)] := by
            exact Option.some_injective _ hm0.symm
          subst hm0'
          simp only [List.mem_singleton] at hpm0
          subst hpm0
          exact Or.inr ⟨ip0, by simp [hk.symm], hg, rfl, rfl⟩
        · rw [if_neg hk] at hm0
          exact Or.inl ⟨m0, hm0, hpm0⟩
      · simp only [Bool.not_eq_true] at hg
        simp only [learnStep, hg] at hm0
        exact Or.inl ⟨m0, by simpa using hm0, hpm0⟩
    · exact Or.inr ⟨ip, List.mem_cons_of_mem _ hmem, hg, hs, hn⟩

/-- C6: for every learning batch (a Go map, so keys are unique) and every
`(portKey, address)` pair in it, a non-global-unicast address leaves the
ipCache unchanged for that key, and a global-unicast address replaces the whole
per-port map by the single-entry map `{address: now}`; keys outside the batch
are untouched; and every entry of the updated cache either was already cached
or records a global-unicast address from the batch — so no non-global-unicast
address ever enters the IP cache. -/
theorem c6_learning_batch_semantics (now : Nat) (ipc : IPCache)
    (fetched : GetResult) (batch : List (String × NetIP))
    (hnd : (batch.map Prod.fst).Nodup) :
    (∀ k ip, alookup batch k = some ip →
      (ipIsGlobalUnicast ip = false →
        alookup (updateOfPortIPAddress now ipc fetched batch).1 k = alookup ipc k)
      ∧ (ipIsGlobalUnicast ip = true →
        alookup (updateOfPortIPAddress now ipc fetched batch).1 k =
          some [(ipString ip, now)]))
    ∧ (∀ k, alookup batch k = none →
        alookup (updateOfPortIPAddress now ipc fetched batch).1 k = alookup ipc k)
    ∧ (∀ k m, alookup (updateOfPortIPAddress now ipc fetched batch).1 k = some m →
        ∀ p ∈ m, (∃ m0, alookup ipc k = some m0 ∧ p ∈ m0) ∨
          (∃ ip, (k, ip) ∈ batch ∧ ipIsGlobalUnicast ip = true ∧
            p.1 = ipString ip ∧ p.2 = now)) := by
  rw [updateOfPortIPAddress_cache_eq]
  refine ⟨?_, ?_, ?_⟩
  · intro k ip hk
    constructor
    · intro hg
      rw [learn_fold_lookup now batch ipc k hnd, hk]
      simp [hg]
    · intro hg
      rw [learn_fold_lookup now batch ipc k hnd, hk]
      simp [hg]
  · intro k hk
    rw [learn_fold_lookup now batch ipc k hnd, hk]
  · exact learn_fold_provenance now batch ipc

/-- C6 witness: a batch with one global-unicast and one loopback address on an
empty cache. -/
theorem c6_learning_batch_semantics_witness :
    (alookup (updateOfPortIPAddress 9 [] GetResult.notFound
        [("br0-5", mkIPv4 10 0 0 7), ("br0-6", mkIPv4 127 0 0 1)]).1 "br0-5"
      = some [("10.0.0.7", 9)])
    ∧ (alookup (updateOfPortIPAddress 9 [] GetResult.notFound
        [("br0-5", mkIPv4 10 0 0 7), ("br0-6", mkIPv4 127 0 0 1)]).1 "br0-6"
      = alookup [] "br0-6") := by
  constructor
  · have h := (c6_learning_batch_semantics 9 [] GetResult.notFound
      [("br0-5", mkIPv4 10 0 0 7), ("br0-6", mkIPv4 127 0 0 1)] (by decide)).1
      "br0-5" (mkIPv4 10 0 0 7) (by decide)
    have h2 := h.2 (by decide)
    rw [h2]
    decide
  · exact ((c6_learning_batch_semantics 9 [] GetResult.notFound
      [("br0-5", mkIPv4 10 0 0 7), ("br0-6", mkIPv4 127 0 0 1)] (by decide)).1
      "br0-6" (mkIPv4 127 0 0 1) (by decide)).1 (by decide)

/-! ### C4: sync-on-learn trigger policy -/

/-- Claim-side definition (following the words of the spec and claim C4): the
total number of addresses held in the ipCache. -/
def cacheAddrTotal (ipc : IPCache) : Nat :=
  (ipc.map fun kv => kv.2.length).sum

/-- Claim-side definition: the total number of addresses recorded in a remote
AgentInfo across all interfaces. -/
def agentAddrTotal (a : AgentInfo) : Nat :=
  (a.ovsInfo.bridges.map fun br =>
    (br.ports.map fun p =>
      (p.interfaces.map fun i => (i.ipMap.getD []).length).sum).sum).sum

/-- A remote interface position for which some locally cached address for its
port key is absent from the remote interface's IP map (the early-return
condition of the scan loop). -/
def badIntf (ipc : IPCache) (bridgeName : String) (i : OVSInterface) : Bool :=
  match alookup ipc (portKey bridgeName i.ofport) with
  | none => false
  | some cacheIPMap => cacheIPMap.any fun kv => (ipmLookupO i.ipMap kv.1).isNone

/-- Some locally cached address for a matching port key is absent from the
corresponding remote interface's IP map. -/
def cachedAddrMissingRemote (ipc : IPCache) (a : AgentInfo) : Bool :=
  a.ovsInfo.bridges.any fun br =>
    br.ports.any fun p => p.interfaces.any (badIntf ipc br.name)

/-- The number of interface positions of the remote record whose port key is
present in the ipCache (what the scan loop actually counts). -/
def intfMatchCount (ipc : IPCache) (bridgeName : String)
    (is : List OVSInterface) : Nat :=
  (is.filter fun i => (alookup ipc (portKey bridgeName i.ofport)).isSome).length

def matchedPosCount (ipc : IPCache) (a : AgentInfo) : Nat :=
  (a.ovsInfo.bridges.map fun br =>
    (br.ports.map fun p => intfMatchCount ipc br.name p.interfaces).sum).sum

theorem shouldSyncScanIntfs_spec (ipc : IPCache) (bn : String)
    (is : List OVSInterface) : ∀ count : Nat,
    shouldSyncScanIntfs ipc bn is count =
      if is.any (badIntf ipc bn) then none
      else some (count + intfMatchCount ipc bn is) := by
  induction is with
  | nil => intro count; simp [shouldSyncScanIntfs, intfMatchCount]
  | cons i rest ih =>
    intro count
    simp only [shouldSyncScanIntfs]
    cases hk : alookup ipc (portKey bn i.ofport) with
    | none =>
      rw [ih count]
      simp [List.any_cons, badIntf, hk, intfMatchCount]
    | some m =>
      by_cases hb : (m.any fun kv => (ipmLookupO i.ipMap kv.1).isNone) = true
      · simp only [hb, if_pos]
        simp [List.any_cons, badIntf, hk, hb]
      · simp only [Bool.not_eq_true] at hb
        simp only [hb, Bool.false_eq_true, if_neg, not_false_iff]
        rw [ih (count + 1)]
        simp only [List.any_cons, badIntf, hk, hb, Bool.false_or]
        by_cases ha : rest.any (badIntf ipc bn) = true
        · simp [ha]
        · simp only [Bool.not_eq_true] at ha
          simp only [ha, Bool.false_eq_true, if_neg, not_false_iff]
          simp [intfMatchCount, hk]
          omega

theorem shouldSyncScanPorts_spec (ipc : IPCache) (bn : String)
    (ps : List OVSPort) : ∀ count : Nat,
    shouldSyncScanPorts ipc bn ps count =
      if ps.any (fun p => p.interfaces.any (badIntf ipc bn)) then none
      else some (count + (ps.map fun p => intfMatchCount ipc bn p.interfaces).sum) := by
  induction ps with
  | nil => intro count; simp [shouldSyncScanPorts]
  | cons p rest ih =>
    intro count
    simp only [shouldSyncScanPorts, shouldSyncScanIntfs_spec]
    by_cases hb : p.interfaces.any (badIntf ipc bn) = true
    · simp [hb]
    · simp only [Bool.not_eq_true] at hb
      simp only [hb, Bool.false_eq_true, if_neg, not_false_iff]
      rw [ih]
      simp only [List.any_cons, hb, Bool.false_or, List.map_cons, List.sum_cons]
      by_cases ha : rest.any (fun p => p.interfaces.any (badIntf ipc bn)) = true
      · simp [ha]
      · simp only [ha, Bool.false_eq_true, if_neg, not_false_iff]
        congr 1
        omega

theorem shouldSyncScanBridges_spec (ipc : IPCache)
    (bs : List OVSBridge) : ∀ count : Nat,
    shouldSyncScanBridges ipc bs count =
      if bs.any (fun br => br.ports.any fun p => p.interfaces.any (badIntf ipc br.name))
      then none
      else some (count + (bs.map fun br =>
        (br.ports.map fun p => intfMatchCount ipc br.name p.interfaces).sum).sum) := by
  induction bs with
  | nil => intro count; simp [shouldSyncScanBridges]
  | cons br rest ih =>
    intro count
    simp only [shouldSyncScanBridges, shouldSyncScanPorts_spec]
    by_cases hb : (br.ports.any fun p => p.interfaces.any (badIntf ipc br.name)) = true
    · simp [hb]
    · simp only [Bool.not_eq_true] at hb
      simp only [hb, Bool.false_eq_true, if_neg, not_false_iff]
      rw [ih]
      simp only [List.any_cons, hb, Bool.false_or, List.map_cons, List.sum_cons]
      by_cases ha : (rest.any fun br => br.ports.any fun p =>
          p.interfaces.any (badIntf ipc br.name)) = true
      · simp [ha]
      · simp only [ha, Bool.false_eq_true, if_neg, not_false_iff]
        congr 1
        omega

/-- The ipCache of the C4 counterexample: one address cached for `br0-1`. -/
def c4cache : IPCache := [("br0-1", [("10.0.0.1", 5)])]

/-- The remote AgentInfo of the C4 counterexample: the matching interface
holds the cached address plus one more. -/
def c4remote : AgentInfo :=
  { name := "agent1",
    ovsInfo :=
      { bridges :=
          [{ name := "br0",
             ports :=
               [{ name := "p0",
                  interfaces :=
                    [{ name := "eth0", ofport := 1,
                       ipMap := some [("10.0.0.1", 3), ("10.0.0.2", 4)] }] }] }] } }

/-- C4 counterexample: the cache holds one address for `br0-1`, the remote
record holds that address plus one more for the same interface. Every cached
address is present remotely and the matched-position count equals the cache
size, so the code does not trigger a sync; but the total address counts of the
cache (1) and the remote record (2) differ, so the claim as stated demands
`true`. -/
theorem c4_trigger_policy_counterexample :
    shouldSyncOnLearnIPLocked c4cache (.found c4remote) = false
    ∧ cachedAddrMissingRemote c4cache c4remote = false
    ∧ cacheAddrTotal c4cache ≠ agentAddrTotal c4remote := by
  refine ⟨by decide, by decide, by decide⟩

/-- C4 as amended: `shouldSyncOnLearnIPLocked` returns true exactly when the
remote fetch fails (not-found included), or some locally cached address for a
matching port key is absent from the corresponding remote interface's IP map,
or the number of remote interface positions whose port key is in the cache
differs from the number of cache entries (not the total address counts); and
after a learning batch, `updateOfPortIPAddress` requests an immediate sync
exactly when that predicate holds on the updated cache. -/
theorem c4_trigger_policy :
    (∀ (ipc : IPCache) (a : AgentInfo),
      shouldSyncOnLearnIPLocked ipc (.found a) =
        (cachedAddrMissingRemote ipc a || !(matchedPosCount ipc a == ipc.length)))
    ∧ (∀ ipc : IPCache, shouldSyncOnLearnIPLocked ipc .notFound = true)
    ∧ (∀ ipc : IPCache, shouldSyncOnLearnIPLocked ipc .getErr = true)
    ∧ (∀ (now : Nat) (ipc : IPCache) (fetched : GetResult)
        (batch : List (String × NetIP)),
        (updateOfPortIPAddress now ipc fetched batch).2 =
          shouldSyncOnLearnIPLocked (updateOfPortIPAddress now ipc fetched batch).1
            fetched) := by
  refine ⟨?_, fun _ => rfl, fun _ => rfl, fun _ _ _ _ => rfl⟩
  intro ipc a
  simp only [shouldSyncOnLearnIPLocked, shouldSyncScanBridges_spec]
  by_cases hb : cachedAddrMissingRemote ipc a = true
  · simp only [cachedAddrMissingRemote] at hb
    simp [hb, cachedAddrMissingRemote]
  · simp only [Bool.not_eq_true] at hb
    have hb' := hb
    simp only [cachedAddrMissingRemote] at hb'
    simp only [hb', Bool.false_eq_true, if_neg, not_false_iff, hb, Bool.false_or]
    simp [matchedPosCount]

/-! ### Cache effect of the merge (aliased in-place writes) -/

/-- The merged cache extends the original: same port-key set, and every
previously present address keeps its timestamp (new addresses may appear in a
port's map through the merge's aliased writes). -/
def cacheExtends (c c' : IPCache) : Prop :=
  (∀ k, (alookup c' k).isSome = (alookup c k).isSome) ∧
  (∀ k m, alookup c k = some m → ∃ m', alookup c' k = some m' ∧
    ∀ ip t, alookup m ip = some t → alookup m' ip = some t)

theorem cacheExtends_refl (c : IPCache) : cacheExtends c c :=
  ⟨fun _ => rfl, fun _ m hm => ⟨m, hm, fun _ _ ht => ht⟩⟩

theorem cacheExtends_trans {a b c : IPCache}
    (h1 : cacheExtends a b) (h2 : cacheExtends b c) : cacheExtends a c := by
  refine ⟨fun k => (h2.1 k).trans (h1.1 k), fun k m hm => ?_⟩
  obtain ⟨m1, hm1, hp1⟩ := h1.2 k m hm
  obtain ⟨m2, hm2, hp2⟩ := h2.2 k m1 hm1
  exact ⟨m2, hm2, fun ip t ht => hp2 ip t (hp1 ip t ht)⟩

theorem mergeOneIntf_extends (cp : AgentInfo) (bn : String) (c : IPCache)
    (i : OVSInterface) : cacheExtends c (mergeOneIntf cp bn c i).2 := by
  unfold mergeOneIntf
  cases getCpIntf bn i cp with
  | none => exact cacheExtends_refl c
  | some matchIntf =>
    cases hi : i.ipMap with
    | none =>
      by_cases hs : (matchIntf.ipMap.getD []).isEmpty = true <;>
        simp [hs, cacheExtends_refl]
    | some captured =>
      cases hk : alookup c (portKey bn i.ofport) with
      | none => simp [hk, cacheExtends_refl]
      | some shared =>
        simp only [hk]
        constructor
        · intro k'
          rw [alookup_awrite]
          by_cases he : portKey bn i.ofport = k'
          · rw [if_pos he, ← he, hk]
            rfl
          · rw [if_neg he]
        · intro k' m hm
          rw [alookup_awrite]
          by_cases he : portKey bn i.ofport = k'
          · subst he
            rw [hk] at hm
            obtain rfl : shared = m := Option.some_injective _ hm
            rw [if_pos rfl]
            refine ⟨_, rfl, fun ip t ht => ?_⟩
            rw [alookup_addAbsent, ht]
          · rw [if_neg he]
            exact ⟨m, hm, fun _ _ ht => ht⟩

theorem mergeIntfList_extends (cp : AgentInfo) (bn : String)
    (is : List OVSInterface) : ∀ c : IPCache,
    cacheExtends c (mergeIntfList cp bn is c).2 := by
  induction is with
  | nil => intro c; exact cacheExtends_refl c
  | cons i rest ih =>
    intro c
    exact cacheExtends_trans (mergeOneIntf_extends cp bn c i) (ih _)

theorem mergePortList_extends (cp : AgentInfo) (bn : String)
    (ps : List OVSPort) : ∀ c : IPCache,
    cacheExtends c (mergePortList cp bn ps c).2 := by
  induction ps with
  | nil => intro c; exact cacheExtends_refl c
  | cons p rest ih =>
    intro c
    exact cacheExtends_trans (mergeIntfList_extends cp bn p.interfaces c) (ih _)

theorem mergeBridgeList_extends (cp : AgentInfo) (bs : List OVSBridge) :
    ∀ c : IPCache, cacheExtends c (mergeBridgeList cp bs c).2 := by
  induction bs with
  | nil => intro c; exact cacheExtends_refl c
  | cons br rest ih =>
    intro c
    exact cacheExtends_trans (mergePortList_extends cp br.name br.ports c) (ih _)

theorem mergeAgentInfo_extends (l cp : AgentInfo) (c : IPCache) :
    cacheExtends c (mergeAgentInfo l cp c).2 :=
  mergeBridgeList_extends cp l.ovsInfo.bridges c

/-! ### C2 and C3: cache behavior of one sync attempt -/

def SyncResult.isSuccess : SyncResult → Bool
  | .success _ _ => true
  | _ => false

def SyncResult.isFailure : SyncResult → Bool
  | .failure _ _ => true
  | _ => false

/-- The ipCache left behind by a completed (non-panicking) attempt. -/
def syncCacheAfter : SyncResult → Option IPCache
  | .success _ c => some c
  | .failure _ c => some c
  | .panicked => none

/-- Address lookup in the cache left behind by an attempt. -/
def syncCacheLookup (r : SyncResult) (k ip : String) : Option Nat :=
  match syncCacheAfter r with
  | some c => ipmLookupO (alookup c k) ip
  | none => none

/-- Concrete OVSDB cache used by the C2 and C3 scenarios: one bridge `br0`
with one port `p0` and one healthy interface `eth0` at ofport 5. -/
def syncOvs : OVSDBCache :=
  [ ("Open_vSwitch", [("uuid-ovs", ⟨[("ovs_version", .str "2.5.1")]⟩)]),
    ("Bridge", [("uuid-br", ⟨[("name", .str "br0"), ("ports", .uuid "uuid-p")]⟩)]),
    ("Port", [("uuid-p", ⟨[("name", .str "p0"), ("external_ids", .vmap []),
                           ("interfaces", .uuid "uuid-i")]⟩)]),
    ("Interface", [("uuid-i", ⟨[("name", .str "eth0"), ("type", .str ""),
                                ("external_ids", .vmap []), ("ofport", .num 5)]⟩)]) ]

/-- Concrete ipCache for the C2 and C3 scenarios: one learned address. -/
def syncIpc : IPCache := [("br0-5", [("10.0.0.1", 7)])]

/-- Concrete remote AgentInfo for the C2 scenario: the matching interface
carries a remote-only address. -/
def syncRemote : AgentInfo :=
  { name := "agent1",
    ovsInfo :=
      { bridges :=
          [{ name := "br0",
             ports :=
               [{ name := "p0",
                  interfaces :=
                    [{ name := "eth0", ofport := 5,
                       ipMap := some [("10.0.0.2", 3)] }] }] }] } }

/-- C2 counterexample: a sync attempt whose remote update fails after the merge
has run leaves the ipCache changed — the port map for `br0-5` has gained the
remote-only address `10.0.0.2` through the merge's aliased in-place write,
although it was absent before the attempt. -/
theorem c2_atomicity_counterexample :
    (syncAgentInfo "agent1" (some "h") 100 syncOvs syncIpc
        (.found syncRemote) true false).isFailure = true
    ∧ syncCacheLookup (syncAgentInfo "agent1" (some "h") 100 syncOvs syncIpc
        (.found syncRemote) true false) "br0-5" "10.0.0.2" = some 3
    ∧ ipmLookupO (alookup syncIpc "br0-5") "10.0.0.2" = none := by
  refine ⟨by decide, by decide, by decide⟩

/-- C2 as amended: a failing sync attempt never removes anything from the
ipCache — the port-key set is unchanged and every previously cached address
keeps its timestamp — but when the update fails after the merge step, per-port
maps may additionally have gained addresses copied from the remote record by
the merge's aliased in-place writes. -/
theorem c2_sync_failure_cache (agentName : String) (hostname : Option String)
    (now : Nat) (ovsdbCache : OVSDBCache) (ipc : IPCache) (remote : GetResult)
    (createOK updateOK : Bool) (c' : IPCache)
    (hfail : (syncAgentInfo agentName hostname now ovsdbCache ipc remote
      createOK updateOK).isFailure = true)
    (hc : syncCacheAfter (syncAgentInfo agentName hostname now ovsdbCache ipc
      remote createOK updateOK) = some c') :
    cacheExtends ipc c' := by
  unfold syncAgentInfo at hfail hc
  generalize hga : getAgentInfo agentName hostname now ovsdbCache ipc = r at hfail hc
  cases r with
  | panicked => cases hc
  | err e =>
    simp only [syncCacheAfter] at hc
    obtain rfl : ipc = c' := Option.some_injective _ hc
    exact cacheExtends_refl _
  | ok agentInfo =>
    cases remote with
    | notFound =>
      cases createOK with
      | true => simp [SyncResult.isFailure] at hfail
      | false =>
        simp only [Bool.false_eq_true, if_neg, not_false_iff, syncCacheAfter] at hc
        obtain rfl : ipc = c' := Option.some_injective _ hc
        exact cacheExtends_refl _
    | getErr =>
      simp only [syncCacheAfter] at hc
      obtain rfl : ipc = c' := Option.some_injective _ hc
      exact cacheExtends_refl _
    | found origin =>
      cases updateOK with
      | true => simp [SyncResult.isFailure] at hfail
      | false =>
        simp only [Bool.false_eq_true, if_neg, not_false_iff, syncCacheAfter] at hc
        obtain rfl : (mergeAgentInfo agentInfo origin ipc).2 = c' :=
          Option.some_injective _ hc
        exact mergeAgentInfo_extends agentInfo origin ipc

/-- C2 witness: the amended preservation property holds on the concrete failed
attempt of the counterexample scenario. -/
theorem c2_sync_failure_cache_witness :
    cacheExtends syncIpc [("br0-5", [("10.0.0.1", 7), ("10.0.0.2", 3)])] :=
  c2_sync_failure_cache "agent1" (some "h") 100 syncOvs syncIpc
    (.found syncRemote) true false _ (by decide) (by decide)

/-- C3 counterexample: a sync attempt in which the remote object does not exist
and is created from the fresh snapshot returns success, yet the ipCache is not
cleared — the code returns before the cache-clearing assignment, which only
runs on the update path. -/
theorem c3_clear_counterexample :
    (syncAgentInfo "agent1" (some "h") 100 syncOvs syncIpc
        .notFound true true).isSuccess = true
    ∧ syncCacheAfter (syncAgentInfo "agent1" (some "h") 100 syncOvs syncIpc
        .notFound true true) = some syncIpc
    ∧ syncIpc ≠ [] := by
  refine ⟨by decide, by decide, by decide⟩

/-- C3 as amended: a successful sync attempt through the update path (remote
object found) leaves the ipCache empty, while a successful attempt through the
create path (remote object absent) leaves the ipCache exactly as it was — not
cleared. Both halves are forced: the conclusion determines the cache left by
every successful attempt from the path it took. -/
theorem c3_success_cache (agentName : String) (hostname : Option String)
    (now : Nat) (ovsdbCache : OVSDBCache) (ipc : IPCache) (remote : GetResult)
    (createOK updateOK : Bool)
    (hok : (syncAgentInfo agentName hostname now ovsdbCache ipc remote
      createOK updateOK).isSuccess = true) :
    (remote = .notFound →
      syncCacheAfter (syncAgentInfo agentName hostname now ovsdbCache ipc remote
        createOK updateOK) = some ipc)
    ∧ (∀ origin, remote = .found origin →
      syncCacheAfter (syncAgentInfo agentName hostname now ovsdbCache ipc remote
        createOK updateOK) = some []) := by
  unfold syncAgentInfo at hok ⊢
  generalize hga : getAgentInfo agentName hostname now ovsdbCache ipc = r at hok ⊢
  cases r with
  | panicked => simp [SyncResult.isSuccess] at hok
  | err e => simp [SyncResult.isSuccess] at hok
  | ok agentInfo =>
    cases remote with
    | notFound =>
      cases createOK with
      | true => exact ⟨fun _ => rfl, fun origin habs => GetResult.noConfusion habs⟩
      | false => simp [SyncResult.isSuccess] at hok
    | getErr => simp [SyncResult.isSuccess] at hok
    | found origin =>
      cases updateOK with
      | true => exact ⟨fun habs => GetResult.noConfusion habs, fun o _ => rfl⟩
      | false => simp [SyncResult.isSuccess] at hok

/-- C3 witness: the amended property applied to two concrete successful
attempts — a create-path one, whose cache is forced to stay `syncIpc`, and an
update-path one, whose cache is forced to be empty. -/
theorem c3_success_cache_witness :
    syncCacheAfter (syncAgentInfo "agent1" (some "h") 100 syncOvs syncIpc
        .notFound true true) = some syncIpc
    ∧ syncCacheAfter (syncAgentInfo "agent1" (some "h") 100 syncOvs syncIpc
        (.found syncRemote) true true) = some [] :=
  ⟨(c3_success_cache "agent1" (some "h") 100 syncOvs syncIpc
      .notFound true true (by decide)).1 rfl,
    (c3_success_cache "agent1" (some "h") 100 syncOvs syncIpc
      (.found syncRemote) true true (by decide)).2 syncRemote rfl⟩

/-! ### Typed-column preconditions for the snapshot build (C5, C10) -/

def isStrVal : Option OVSValue → Bool
  | some (.str _) => true
  | _ => false

def isStrPair : OVSValue × OVSValue → Bool
  | (.str _, .str _) => true
  | _ => false

def strMapOK : Option OVSValue → Bool
  | some (.vmap pairs) => pairs.all isStrPair
  | _ => false

def isNumVal : OVSValue → Bool
  | .num _ => true
  | _ => false

/-- The trunks column never panics unless it is a set holding a non-number. -/
def trunksOK : Option OVSValue → Bool
  | some (.set items) => items.all isNumVal
  | _ => true

/-- Columns of an interface row that undergo hard type assertions. -/
def wellTypedIfaceRow (row : Row) : Bool :=
  isStrVal (row.fieldGet "name") && isStrVal (row.fieldGet "type")
    && strMapOK (row.fieldGet "external_ids")

/-- Columns of a port row that undergo hard type assertions. -/
def wellTypedPortRow (row : Row) : Bool :=
  isStrVal (row.fieldGet "name") && strMapOK (row.fieldGet "external_ids")
    && trunksOK (row.fieldGet "trunks")

/-- Columns of a bridge row that undergo hard type assertions. -/
def wellTypedBridgeRow (row : Row) : Bool :=
  isStrVal (row.fieldGet "name")

/-- Every row of every table carries its expected protocol types on the
columns the build asserts. -/
def wellTypedCache (c : OVSDBCache) : Bool :=
  ((tableGet c "Open_vSwitch").all fun kv => isStrVal (kv.2.fieldGet "ovs_version"))
    && ((tableGet c "Bridge").all fun kv => wellTypedBridgeRow kv.2)
    && ((tableGet c "Port").all fun kv => wellTypedPortRow kv.2)
    && ((tableGet c "Interface").all fun kv => wellTypedIfaceRow kv.2)

theorem alookup_mem {α : Type} (l : List (String × α)) (k : String) (v : α)
    (h : alookup l k = some v) : (k, v) ∈ l := by
  induction l with
  | nil => cases h
  | cons hd tl ih =>
    obtain ⟨hk, hv⟩ := hd
    simp only [alookup] at h
    by_cases he : hk = k
    · rw [if_pos he] at h
      obtain rfl : hv = v := Option.some_injective _ h
      rw [he]
      exact List.mem_cons_self _ _
    · rw [if_neg he] at h
      exact List.mem_cons_of_mem _ (ih h)

theorem alookup_of_mem_nodup {α : Type} (l : List (String × α)) (k : String)
    (v : α) (hmem : (k, v) ∈ l) (hnd : (l.map Prod.fst).Nodup) :
    alookup l k = some v := by
  induction l with
  | nil => cases hmem
  | cons hd tl ih =>
    obtain ⟨hk, hv⟩ := hd
    simp only [List.map_cons, List.nodup_cons] at hnd
    rcases List.mem_cons.mp hmem with he | hmem'
    · obtain ⟨rfl, rfl⟩ := Prod.mk.injEq .. ▸ he
      injection he with h1 h2
      simp [alookup]
    · have hk' : ¬hk = k := by
        intro he
        subst he
        exact hnd.1 (List.mem_map.mpr ⟨(hk, v), hmem', rfl⟩)
      simp only [alookup, if_neg hk']
      exact ih hmem' hnd.2

theorem isStrVal_elim (v : Option OVSValue) (h : isStrVal v = true) :
    ∃ s, v = some (.str s) := by
  cases v with
  | none => cases h
  | some w => cases w <;> first | exact ⟨_, rfl⟩ | cases h

theorem buildStringMap_ok (pairs : List (OVSValue × OVSValue))
    (h : pairs.all isStrPair = true) :
    ∀ acc, ∃ m, buildStringMap pairs acc = .ok m := by
  induction pairs with
  | nil => intro acc; exact ⟨acc, rfl⟩
  | cons hd tl ih =>
    intro acc
    simp only [List.all_cons, Bool.and_eq_true] at h
    obtain ⟨h1, h2⟩ := h
    obtain ⟨k, v⟩ := hd
    obtain ⟨ks, vs, rfl, rfl⟩ : ∃ ks vs, k = OVSValue.str ks ∧ v = OVSValue.str vs := by
      cases k <;> cases v <;> first | exact ⟨_, _, rfl, rfl⟩ | simp [isStrPair] at h1
    obtain ⟨m, hm⟩ := ih h2 (awrite acc ks vs)
    exact ⟨m, by simpa [buildStringMap] using hm⟩

theorem strMapOK_elim (v : Option OVSValue) (h : strMapOK v = true) :
    ∃ pairs, v = some (.vmap pairs) ∧ pairs.all isStrPair = true := by
  cases v with
  | none => cases h
  | some w =>
    cases w with
    | vmap pairs => exact ⟨pairs, rfl, by simpa [strMapOK] using h⟩
    | str s => cases h
    | num n => cases h
    | uuid u => cases h
    | set l => cases h

theorem assertNumList_ok (items : List OVSValue)
    (h : items.all isNumVal = true) : ∃ l, assertNumList items = .ok l := by
  induction items with
  | nil => exact ⟨[], rfl⟩
  | cons hd tl ih =>
    simp only [List.all_cons, Bool.and_eq_true] at h
    obtain ⟨h1, h2⟩ := h
    obtain ⟨l, hl⟩ := ih h2
    obtain ⟨n, rfl⟩ : ∃ n, hd = OVSValue.num n := by
      cases hd <;> first | exact ⟨_, rfl⟩ | simp [isNumVal] at h1
    exact ⟨n :: l, by simp [assertNumList, hl, FetchResult.bind]⟩

theorem extractTrunks_ok (v : Option OVSValue) (h : trunksOK v = true) :
    ∃ l, extractTrunks v = .ok l := by
  cases v with
  | none => exact ⟨[], rfl⟩
  | some w =>
    cases w with
    | set items => exact assertNumList_ok items (by simpa [trunksOK] using h)
    | str s => exact ⟨[], rfl⟩
    | num n => exact ⟨[], rfl⟩
    | uuid u => exact ⟨[], rfl⟩
    | vmap l => exact ⟨[], rfl⟩

/-- Under a well-typed Interface table, fetching an interface never errs and
never panics. -/
theorem fetchInterfaceLocked_total (c : OVSDBCache) (ipc : IPCache)
    (hw : ((tableGet c "Interface").all fun kv => wellTypedIfaceRow kv.2) = true)
    (u bn : String) : ∃ o, fetchInterfaceLocked c ipc u bn = .ok o := by
  cases hrow : rowGet c "Interface" u with
  | none => exact ⟨none, by simp [fetchInterfaceLocked, hrow]⟩
  | some row =>
    have hmem : (u, row) ∈ tableGet c "Interface" := alookup_mem _ _ _ hrow
    have hwt : wellTypedIfaceRow row = true := List.all_eq_true.mp hw _ hmem
    simp only [wellTypedIfaceRow, Bool.and_eq_true] at hwt
    obtain ⟨⟨hn, ht⟩, he⟩ := hwt
    by_cases herr : ifHasError (row.fieldGet "error") = true
    · exact ⟨none, by simp [fetchInterfaceLocked, hrow, herr]⟩
    · simp only [Bool.not_eq_true] at herr
      obtain ⟨nm, hnm⟩ := isStrVal_elim _ hn
      obtain ⟨ty, hty⟩ := isStrVal_elim _ ht
      obtain ⟨pairs, hpairs, hps⟩ := strMapOK_elim _ he
      obtain ⟨ext, hext⟩ := buildStringMap_ok pairs hps []
      exact ⟨_, fetchInterfaceLocked_eq_ok c ipc u bn row nm ty pairs ext
        hrow herr hnm hty hpairs hext⟩

theorem fetchIfaceList_total (c : OVSDBCache) (ipc : IPCache) (bn : String)
    (hw : ((tableGet c "Interface").all fun kv => wellTypedIfaceRow kv.2) = true)
    (us : List String) : ∃ l, fetchIfaceList c ipc bn us = .ok l := by
  induction us with
  | nil => exact ⟨[], rfl⟩
  | cons u rest ih =>
    obtain ⟨o, ho⟩ := fetchInterfaceLocked_total c ipc hw u bn
    obtain ⟨l, hl⟩ := ih
    cases o with
    | some i => exact ⟨i :: l, by simp [fetchIfaceList, ho, hl, FetchResult.bind]⟩
    | none => exact ⟨l, by simp [fetchIfaceList, ho, hl, FetchResult.bind]⟩

/-- Under well-typed Port and Interface tables, fetching a port errs exactly on
a missing row and otherwise succeeds; it never panics. -/
theorem fetchPortLocked_ok (c : OVSDBCache) (ipc : IPCache)
    (hwp : ((tableGet c "Port").all fun kv => wellTypedPortRow kv.2) = true)
    (hwi : ((tableGet c "Interface").all fun kv => wellTypedIfaceRow kv.2) = true)
    (u bn : String) (row : Row) (hrow : rowGet c "Port" u = some row) :
    ∃ p, fetchPortLocked c ipc u bn = .ok p := by
  have hmem : (u, row) ∈ tableGet c "Port" := alookup_mem _ _ _ hrow
  have hwt : wellTypedPortRow row = true := List.all_eq_true.mp hwp _ hmem
  simp only [wellTypedPortRow, Bool.and_eq_true] at hwt
  obtain ⟨⟨hn, he⟩, htr⟩ := hwt
  obtain ⟨nm, hnm⟩ := isStrVal_elim _ hn
  obtain ⟨pairs, hpairs, hps⟩ := strMapOK_elim _ he
  obtain ⟨ext, hext⟩ := buildStringMap_ok pairs hps []
  obtain ⟨tr, htr'⟩ := extractTrunks_ok _ htr
  obtain ⟨ifs, hifs⟩ := fetchIfaceList_total c ipc bn hwi
    (listUUIDOpt (row.fieldGet "interfaces"))
  refine ⟨{ name := nm, externalIDs := ext,
            vlanConfig := { vlanMode := vlanModeMap (tryString (row.fieldGet "vlan_mode")),
                            tag := toInt32 (tryNum (row.fieldGet "tag")),
                            trunk := trunkString tr },
            bondConfig := { bondMode := bondModeMap (tryString (row.fieldGet "bond_mode")) },
            interfaces := ifs }, ?_⟩
  simp [fetchPortLocked, hrow, hnm, hpairs, hext, htr', hifs, FetchResult.bind,
    assertString, assertStringMap]

theorem fetchPortLocked_missing (c : OVSDBCache) (ipc : IPCache)
    (u bn : String) (hrow : rowGet c "Port" u = none) :
    fetchPortLocked c ipc u bn = .err ("ovs port " ++ u ++ " not found in cache") := by
  simp [fetchPortLocked, hrow]

/-- If every referenced port row is present (and the tables are well typed),
the port loop succeeds. -/
theorem fetchPortList_ok (c : OVSDBCache) (ipc : IPCache) (bn : String)
    (hwp : ((tableGet c "Port").all fun kv => wellTypedPortRow kv.2) = true)
    (hwi : ((tableGet c "Interface").all fun kv => wellTypedIfaceRow kv.2) = true)
    (us : List String) (hall : ∀ u ∈ us, (rowGet c "Port" u).isSome) :
    ∃ l, fetchPortList c ipc bn us = .ok l := by
  induction us with
  | nil => exact ⟨[], rfl⟩
  | cons u rest ih =>
    obtain ⟨row, hrow⟩ := Option.isSome_iff_exists.mp (hall u (List.mem_cons_self u rest))
    obtain ⟨p, hp⟩ := fetchPortLocked_ok c ipc hwp hwi u bn row hrow
    obtain ⟨l, hl⟩ := ih fun v hv => hall v (List.mem_cons_of_mem _ hv)
    exact ⟨p :: l, by simp [fetchPortList, hp, hl, FetchResult.bind]⟩

/-- If some referenced port row is missing (and the tables are well typed),
the port loop returns an error — not a panic, not success. -/
theorem fetchPortList_err (c : OVSDBCache) (ipc : IPCache) (bn : String)
    (hwp : ((tableGet c "Port").all fun kv => wellTypedPortRow kv.2) = true)
    (hwi : ((tableGet c "Interface").all fun kv => wellTypedIfaceRow kv.2) = true)
    (us : List String) (hbad : ∃ u ∈ us, rowGet c "Port" u = none) :
    ∃ msg, fetchPortList c ipc bn us = .err msg := by
  induction us with
  | nil => obtain ⟨u, hu, _⟩ := hbad; cases hu
  | cons u rest ih =>
    cases hrow : rowGet c "Port" u with
    | none =>
      refine ⟨"ovs port " ++ u ++ " not found in cache", ?_⟩
      simp [fetchPortList, fetchPortLocked_missing c ipc u bn hrow, FetchResult.bind]
    | some row =>
      obtain ⟨p, hp⟩ := fetchPortLocked_ok c ipc hwp hwi u bn row hrow
      obtain ⟨v, hv, hvn⟩ := hbad
      rcases List.mem_cons.mp hv with rfl | hv'
      · rw [hrow] at hvn; cases hvn
      · obtain ⟨msg, hmsg⟩ := ih ⟨v, hv', hvn⟩
        exact ⟨msg, by simp [fetchPortList, hp, hmsg, FetchResult.bind]⟩

theorem alookup_isSome_of_mem_key {α : Type} (l : List (String × α)) (k : String)
    (v : α) (h : (k, v) ∈ l) : (alookup l k).isSome := by
  induction l with
  | nil => cases h
  | cons hd tl ih =>
    obtain ⟨hk, hv⟩ := hd
    rcases List.mem_cons.mp h with he | hmem
    · injection he with h1 h2
      simp [alookup, h1]
    · by_cases hk' : hk = k
      · simp [alookup, hk']
      · simp only [alookup, if_neg hk']
        exact ih hmem

/-- A bridge row reachable by reference but absent from the Bridge table. In
`getAgentInfo` every fetched bridge uuid comes from the Bridge table itself, so
this situation cannot arise there; the claim's bridge half is vacuous. -/
def hasMissingPortRef (c : OVSDBCache) : Bool :=
  (tableGet c "Bridge").any fun kv =>
    (listUUIDOpt (kv.2.fieldGet "ports")).any fun u => (rowGet c "Port" u).isNone

theorem fetchBridgeLocked_ok (c : OVSDBCache) (ipc : IPCache)
    (hwp : ((tableGet c "Port").all fun kv => wellTypedPortRow kv.2) = true)
    (hwi : ((tableGet c "Interface").all fun kv => wellTypedIfaceRow kv.2) = true)
    (u : String) (row : Row) (hrow : rowGet c "Bridge" u = some row)
    (hwb : wellTypedBridgeRow row = true)
    (hall : ∀ v ∈ listUUIDOpt (row.fieldGet "ports"), (rowGet c "Port" v).isSome) :
    ∃ b, fetchBridgeLocked c ipc u = .ok b := by
  obtain ⟨nm, hnm⟩ := isStrVal_elim _ hwb
  obtain ⟨ps, hps⟩ := fetchPortList_ok c ipc nm hwp hwi _ hall
  exact ⟨{ name := nm, ports := ps },
    by simp [fetchBridgeLocked, hrow, hnm, hps, FetchResult.bind, assertString]⟩

theorem fetchBridgeLocked_err (c : OVSDBCache) (ipc : IPCache)
    (hwp : ((tableGet c "Port").all fun kv => wellTypedPortRow kv.2) = true)
    (hwi : ((tableGet c "Interface").all fun kv => wellTypedIfaceRow kv.2) = true)
    (u : String) (row : Row) (hrow : rowGet c "Bridge" u = some row)
    (hwb : wellTypedBridgeRow row = true)
    (hbad : ∃ v ∈ listUUIDOpt (row.fieldGet "ports"), rowGet c "Port" v = none) :
    ∃ msg, fetchBridgeLocked c ipc u = .err msg := by
  obtain ⟨nm, hnm⟩ := isStrVal_elim _ hwb
  obtain ⟨msg, hmsg⟩ := fetchPortList_err c ipc nm hwp hwi _ hbad
  exact ⟨msg, by simp [fetchBridgeLocked, hrow, hnm, hmsg, FetchResult.bind, assertString]⟩

theorem fetchBridgeLocked_total (c : OVSDBCache) (ipc : IPCache)
    (hwb : ((tableGet c "Bridge").all fun kv => wellTypedBridgeRow kv.2) = true)
    (hwp : ((tableGet c "Port").all fun kv => wellTypedPortRow kv.2) = true)
    (hwi : ((tableGet c "Interface").all fun kv => wellTypedIfaceRow kv.2) = true)
    (u : String) :
    (∃ b, fetchBridgeLocked c ipc u = .ok b) ∨
      (∃ msg, fetchBridgeLocked c ipc u = .err msg) := by
  cases hrow : rowGet c "Bridge" u with
  | none =>
    exact Or.inr ⟨"ovs bridge " ++ u ++ " not found in cache",
      by simp [fetchBridgeLocked, hrow]⟩
  | some row =>
    have hwt : wellTypedBridgeRow row = true :=
      List.all_eq_true.mp hwb _ (alookup_mem _ _ _ hrow)
    by_cases hall : ∀ v ∈ listUUIDOpt (row.fieldGet "ports"), (rowGet c "Port" v).isSome
    · exact Or.inl (fetchBridgeLocked_ok c ipc hwp hwi u row hrow hwt hall)
    · push_neg at hall
      obtain ⟨v, hv, hvn⟩ := hall
      exact Or.inr (fetchBridgeLocked_err c ipc hwp hwi u row hrow hwt
        ⟨v, hv, Option.not_isSome_iff_eq_none.mp (by simpa using hvn)⟩)

theorem fetchBridgeRows_ok (c : OVSDBCache) (ipc : IPCache)
    (rows : List (String × Row))
    (hall : ∀ p ∈ rows, ∃ b, fetchBridgeLocked c ipc p.1 = .ok b) :
    ∃ l, fetchBridgeRows c ipc rows = .ok l := by
  induction rows with
  | nil => exact ⟨[], rfl⟩
  | cons p rest ih =>
    obtain ⟨b, hb⟩ := hall p (List.mem_cons_self p rest)
    obtain ⟨l, hl⟩ := ih fun q hq => hall q (List.mem_cons_of_mem _ hq)
    obtain ⟨u, r⟩ := p
    exact ⟨b :: l, by simp only [fetchBridgeRows, hb, hl, FetchResult.bind]⟩

theorem fetchBridgeRows_ok_elim (c : OVSDBCache) (ipc : IPCache)
    (rows : List (String × Row)) (l : List OVSBridge)
    (h : fetchBridgeRows c ipc rows = .ok l) :
    ∀ p ∈ rows, ∃ b, fetchBridgeLocked c ipc p.1 = .ok b := by
  induction rows generalizing l with
  | nil => intro p hp; cases hp
  | cons q rest ih =>
    intro p hp
    obtain ⟨u, r⟩ := q
    simp only [fetchBridgeRows] at h
    cases hq : fetchBridgeLocked c ipc u with
    | ok b =>
      rw [hq] at h
      cases hrest : fetchBridgeRows c ipc rest with
      | ok l2 =>
        rcases List.mem_cons.mp hp with rfl | hp'
        · exact ⟨b, hq⟩
        · exact ih l2 hrest p hp'
      | err m => rw [hrest] at h; cases h
      | panicked => rw [hrest] at h; cases h
    | err m => rw [hq] at h; cases h
    | panicked => rw [hq] at h; cases h

theorem fetchBridgeRows_err (c : OVSDBCache) (ipc : IPCache)
    (rows : List (String × Row))
    (htotal : ∀ p ∈ rows, (∃ b, fetchBridgeLocked c ipc p.1 = .ok b) ∨
      (∃ msg, fetchBridgeLocked c ipc p.1 = .err msg))
    (hbad : ∃ p ∈ rows, ∃ msg, fetchBridgeLocked c ipc p.1 = .err msg) :
    ∃ msg, fetchBridgeRows c ipc rows = .err msg := by
  induction rows with
  | nil => obtain ⟨p, hp, _⟩ := hbad; cases hp
  | cons q rest ih =>
    obtain ⟨u, r⟩ := q
    rcases htotal (u, r) (List.mem_cons_self _ _) with ⟨b, hb⟩ | ⟨m, hm⟩
    · have hbad' : ∃ p ∈ rest, ∃ msg, fetchBridgeLocked c ipc p.1 = .err msg := by
        obtain ⟨p, hp, msg, hmsg⟩ := hbad
        rcases List.mem_cons.mp hp with rfl | hp'
        · rw [hb] at hmsg; cases hmsg
        · exact ⟨p, hp', msg, hmsg⟩
      obtain ⟨msg, hmsg⟩ := ih (fun p hp => htotal p (List.mem_cons_of_mem _ hp)) hbad'
      exact ⟨msg, by simp only [fetchBridgeRows, hb, hmsg, FetchResult.bind]⟩
    · exact ⟨"unable fetch bridge " ++ u ++ ": " ++ m,
        by simp only [fetchBridgeRows, hm]⟩

theorem fetchOvsVersionLocked_total (c : OVSDBCache)
    (hw : ((tableGet c "Open_vSwitch").all fun kv =>
      isStrVal (kv.2.fieldGet "ovs_version")) = true) :
    (∃ v, fetchOvsVersionLocked c = .ok v) ∨
      (∃ msg, fetchOvsVersionLocked c = .err msg) := by
  cases ht : tableGet c "Open_vSwitch" with
  | nil =>
    exact Or.inr ⟨"could not find table Open_vSwitch, agentMonitor may not have started",
      by simp [fetchOvsVersionLocked, ht]⟩
  | cons kv rest =>
    obtain ⟨u, raw⟩ := kv
    have : isStrVal (raw.fieldGet "ovs_version") = true := by
      have := List.all_eq_true.mp hw (u, raw) (ht ▸ List.mem_cons_self _ _)
      exact this
    obtain ⟨s, hs⟩ := isStrVal_elim _ this
    exact Or.inl ⟨s, by simp [fetchOvsVersionLocked, ht, hs, assertString]⟩

/-- The AgentInfo value produced by a successful build, named for use in
existence proofs. -/
def mkAgentInfo (agentName : String) (hostname : Option String) (now : Nat)
    (version : String) (bridges : List OVSBridge) : AgentInfo :=
  { name := agentName, hostname := hostname.getD "",
    ovsInfo := { version := version, bridges := bridges },
    conditions := [{ condType := "AgentHealthy", status := "True",
                     lastHeartbeatTime := now }] }

theorem getAgentInfo_total (agentName : String) (hostname : Option String)
    (now : Nat) (c : OVSDBCache) (ipc : IPCache)
    (hw : wellTypedCache c = true) :
    (∃ a, getAgentInfo agentName hostname now c ipc = .ok a) ∨
      (∃ msg, getAgentInfo agentName hostname now c ipc = .err msg) := by
  simp only [wellTypedCache, Bool.and_eq_true] at hw
  obtain ⟨⟨⟨hv, hwb⟩, hwp⟩, hwi⟩ := hw
  have hbr : ∀ p ∈ tableGet c "Bridge",
      (∃ b, fetchBridgeLocked c ipc p.1 = .ok b) ∨
        (∃ msg, fetchBridgeLocked c ipc p.1 = .err msg) :=
    fun p _ => fetchBridgeLocked_total c ipc hwb hwp hwi p.1
  have hrows : (∃ l, fetchBridgeRows c ipc (tableGet c "Bridge") = .ok l) ∨
      (∃ m, fetchBridgeRows c ipc (tableGet c "Bridge") = .err m) := by
    by_cases hok : ∀ p ∈ tableGet c "Bridge", ∃ b, fetchBridgeLocked c ipc p.1 = .ok b
    · exact Or.inl (fetchBridgeRows_ok c ipc _ hok)
    · push_neg at hok
      obtain ⟨p, hp, hnone⟩ := hok
      rcases hbr p hp with ⟨b, hb⟩ | ⟨m, hm⟩
      · exact (hnone b hb).elim
      · exact Or.inr (fetchBridgeRows_err c ipc _ hbr ⟨p, hp, m, hm⟩)
  rcases fetchOvsVersionLocked_total c hv with ⟨v, hvv⟩ | ⟨m, hvm⟩
  · rcases hrows with ⟨l, hl⟩ | ⟨m, hm⟩
    · exact Or.inl ⟨mkAgentInfo agentName hostname now v l,
        by simp [getAgentInfo, mkAgentInfo, hvv, hl, FetchResult.bind]⟩
    · exact Or.inr ⟨m, by simp [getAgentInfo, hvv, hm, FetchResult.bind]⟩
  · rcases hrows with ⟨l, hl⟩ | ⟨m, hm⟩
    · exact Or.inl ⟨mkAgentInfo agentName hostname now "" l,
        by simp [getAgentInfo, mkAgentInfo, hvm, hl, FetchResult.bind]⟩
    · exact Or.inr ⟨m, by simp [getAgentInfo, hvm, hm, FetchResult.bind]⟩

theorem getAgentInfo_ok_elim (agentName : String) (hostname : Option String)
    (now : Nat) (c : OVSDBCache) (ipc : IPCache) (a : AgentInfo)
    (h : getAgentInfo agentName hostname now c ipc = .ok a) :
    ∃ l, fetchBridgeRows c ipc (tableGet c "Bridge") = .ok l := by
  unfold getAgentInfo at h
  cases hv : fetchOvsVersionLocked c with
  | panicked => rw [hv] at h; cases h
  | ok v =>
    rw [hv] at h
    cases hr : fetchBridgeRows c ipc (tableGet c "Bridge") with
    | ok l => exact ⟨l, rfl⟩
    | err m => rw [hr] at h; cases h
    | panicked => rw [hr] at h; cases h
  | err m =>
    rw [hv] at h
    cases hr : fetchBridgeRows c ipc (tableGet c "Bridge") with
    | ok l => exact ⟨l, rfl⟩
    | err m2 => rw [hr] at h; cases h
    | panicked => rw [hr] at h; cases h

/-! ### C5: hard versus soft cache inconsistency -/

/-- Concrete cache for the C5 witness: a bridge referencing a port uuid that is
missing from the Port table; everything present is well typed. -/
def c5bad : OVSDBCache :=
  [ ("Open_vSwitch", [("u0", ⟨[("ovs_version", .str "2.5.1")]⟩)]),
    ("Bridge", [("ub", ⟨[("name", .str "br0"), ("ports", .uuid "up")]⟩)]),
    ("Port", []),
    ("Interface", []) ]

/-- C5: on a well-typed OVSDB cache (bridge-table keys unique, as Go maps
guarantee), a port row reachable by reference but missing from the cache makes
the whole snapshot build return an error; when every referenced port row is
present the build succeeds (even if interface references dangle); and an
interface row reachable by reference but missing from the cache is soft-skipped
by the interface fetch. A bridge row missing from the cache cannot arise: the
build enumerates bridge uuids from the Bridge table itself. -/
theorem c5_hard_vs_soft_cache_inconsistency :
    (∀ (c : OVSDBCache) (ipc : IPCache) (an : String) (hn : Option String)
        (now : Nat),
      wellTypedCache c = true →
      ((tableGet c "Bridge").map Prod.fst).Nodup →
      hasMissingPortRef c = true →
      ∃ msg, getAgentInfo an hn now c ipc = .err msg)
    ∧
    (∀ (c : OVSDBCache) (ipc : IPCache) (an : String) (hn : Option String)
        (now : Nat),
      wellTypedCache c = true →
      hasMissingPortRef c = false →
      ∃ a, getAgentInfo an hn now c ipc = .ok a)
    ∧
    (∀ (c : OVSDBCache) (ipc : IPCache) (u bn : String),
      rowGet c "Interface" u = none →
      fetchInterfaceLocked c ipc u bn = .ok none) := by
  refine ⟨?_, ?_, ?_⟩
  · intro c ipc an hn now hw hnd hmiss
    have hw' := hw
    simp only [wellTypedCache, Bool.and_eq_true] at hw'
    obtain ⟨⟨⟨hv, hwb⟩, hwp⟩, hwi⟩ := hw'
    obtain ⟨kv, hkv, hbadrefs⟩ := List.any_eq_true.mp hmiss
    obtain ⟨v, hvmem, hvnone⟩ := List.any_eq_true.mp hbadrefs
    have hrow : rowGet c "Bridge" kv.1 = some kv.2 :=
      alookup_of_mem_nodup _ _ _ (by simpa using hkv) hnd
    have hwbrow : wellTypedBridgeRow kv.2 = true := List.all_eq_true.mp hwb _ hkv
    obtain ⟨m, herr⟩ := fetchBridgeLocked_err c ipc hwp hwi kv.1 kv.2 hrow hwbrow
      ⟨v, hvmem, Option.isNone_iff_eq_none.mp hvnone⟩
    have hbr : ∀ p ∈ tableGet c "Bridge",
        (∃ b, fetchBridgeLocked c ipc p.1 = .ok b) ∨
          (∃ msg, fetchBridgeLocked c ipc p.1 = .err msg) :=
      fun p _ => fetchBridgeLocked_total c ipc hwb hwp hwi p.1
    obtain ⟨msg, hrowsErr⟩ := fetchBridgeRows_err c ipc _ hbr ⟨kv, hkv, m, herr⟩
    rcases getAgentInfo_total an hn now c ipc hw with ⟨a, ha⟩ | ⟨m2, hm2⟩
    · obtain ⟨l, hl⟩ := getAgentInfo_ok_elim an hn now c ipc a ha
      rw [hrowsErr] at hl
      cases hl
    · exact ⟨m2, hm2⟩
  · intro c ipc an hn now hw hnomiss
    simp only [wellTypedCache, Bool.and_eq_true] at hw
    obtain ⟨⟨⟨hv, hwb⟩, hwp⟩, hwi⟩ := hw
    have hok : ∀ p ∈ tableGet c "Bridge",
        ∃ b, fetchBridgeLocked c ipc p.1 = .ok b := by
      intro p hp
      have hpsome : (alookup (tableGet c "Bridge") p.1).isSome :=
        alookup_isSome_of_mem_key _ p.1 p.2 (by simpa using hp)
      obtain ⟨row, hrow⟩ := Option.isSome_iff_exists.mp hpsome
      have hrowmem : (p.1, row) ∈ tableGet c "Bridge" := alookup_mem _ _ _ hrow
      have hwbrow : wellTypedBridgeRow row = true := List.all_eq_true.mp hwb _ hrowmem
      have hrefs : ∀ u ∈ listUUIDOpt (row.fieldGet "ports"),
          (rowGet c "Port" u).isSome := by
        intro u hu
        have h1 := List.any_eq_false.mp hnomiss (p.1, row) hrowmem
        have h1' := Bool.eq_false_iff.mpr h1
        have h2 := List.any_eq_false.mp h1' u hu
        cases hres : rowGet c "Port" u with
        | none => rw [hres] at h2; cases h2 rfl
        | some q => simp
      exact fetchBridgeLocked_ok c ipc hwp hwi p.1 row hrow hwbrow hrefs
    obtain ⟨l, hl⟩ := fetchBridgeRows_ok c ipc _ hok
    rcases fetchOvsVersionLocked_total c hv with ⟨ver, hvv⟩ | ⟨m, hvm⟩
    · exact ⟨mkAgentInfo an hn now ver l,
        by simp [getAgentInfo, mkAgentInfo, hvv, hl, FetchResult.bind]⟩
    · exact ⟨mkAgentInfo an hn now "" l,
        by simp [getAgentInfo, mkAgentInfo, hvm, hl, FetchResult.bind]⟩
  · intro c ipc u bn h
    simp [fetchInterfaceLocked, h]

/-- C5 witness: a concrete bad cache aborts the build with an error; the
concrete healthy cache builds a snapshot even though we can point at a missing
interface reference being soft-skipped. -/
theorem c5_hard_vs_soft_cache_inconsistency_witness :
    (∃ msg, getAgentInfo "agent1" none 0 c5bad [] = .err msg)
    ∧ (∃ a, getAgentInfo "agent1" none 0 syncOvs [] = .ok a)
    ∧ fetchInterfaceLocked syncOvs [] "uuid-dangling" "br0" = .ok none := by
  refine ⟨?_, ?_, ?_⟩
  · exact c5_hard_vs_soft_cache_inconsistency.1 c5bad [] "agent1" none 0
      (by decide) (by decide) (by decide)
  · exact c5_hard_vs_soft_cache_inconsistency.2.1 syncOvs [] "agent1" none 0
      (by decide) (by decide)
  · exact c5_hard_vs_soft_cache_inconsistency.2.2 syncOvs [] "uuid-dangling" "br0" rfl

/-! ### C10: typed-column preconditions and panics -/

/-- A root-table row whose `ovs_version` is a number, not a string. -/
def c10ovsBad : OVSDBCache :=
  [("Open_vSwitch", [("u0", ⟨[("ovs_version", .num 1)]⟩)])]

/-- A reachable port row whose `name` is a number, not a string. -/
def c10portBad : OVSDBCache :=
  [ ("Open_vSwitch", [("u0", ⟨[("ovs_version", .str "2.5.1")]⟩)]),
    ("Bridge", [("ub", ⟨[("name", .str "br0"), ("ports", .uuid "up")]⟩)]),
    ("Port", [("up", ⟨[("name", .num 1)]⟩)]),
    ("Interface", []) ]

/-- A reachable interface row whose `type` is a number, not a string. -/
def c10ifaceBad : OVSDBCache :=
  [ ("Open_vSwitch", [("u0", ⟨[("ovs_version", .str "2.5.1")]⟩)]),
    ("Bridge", [("ub", ⟨[("name", .str "br0"), ("ports", .uuid "up")]⟩)]),
    ("Port", [("up", ⟨[("name", .str "p0"), ("external_ids", .vmap []),
                       ("interfaces", .uuid "ui")]⟩)]),
    ("Interface", [("ui", ⟨[("name", .str "eth0"), ("type", .num 1)]⟩)]) ]

/-- C10: snapshot building panics (rather than returning an error) on a
non-empty root-table row whose `ovs_version` is not a string, on a reachable
port row whose `name` has the wrong type, and on a reachable interface row
whose `type` has the wrong type; under the precondition that every asserted
column carries its expected protocol type, the build never panics — it returns
a snapshot or an error. -/
theorem c10_typed_column_preconditions :
    getAgentInfo "agent1" none 0 c10ovsBad [] = .panicked
    ∧ getAgentInfo "agent1" none 0 c10portBad [] = .panicked
    ∧ getAgentInfo "agent1" none 0 c10ifaceBad [] = .panicked
    ∧ (∀ (c : OVSDBCache) (ipc : IPCache) (an : String) (hn : Option String)
        (now : Nat),
        wellTypedCache c = true →
        getAgentInfo an hn now c ipc ≠ .panicked) := by
  refine ⟨by decide, by decide, by decide, ?_⟩
  intro c ipc an hn now hw
  rcases getAgentInfo_total an hn now c ipc hw with ⟨a, ha⟩ | ⟨m, hm⟩
  · rw [ha]; intro h; cases h
  · rw [hm]; intro h; cases h

/-- C10 witness: the no-panic conjunct applied to the concrete healthy cache. -/
theorem c10_typed_column_preconditions_witness :
    getAgentInfo "agent1" none 0 syncOvs [] ≠ .panicked :=
  c10_typed_column_preconditions.2.2.2 syncOvs [] "agent1" none 0 (by decide)

/-! ### C1: the merge preserves the union of IP-map keys -/

/-- Keys of the ipCache entries aliased by the interfaces of a list: one key
per interface whose IPMap is non-nil (those are exactly the interfaces whose
map object is shared with the cache). -/
def intfKeys (bn : String) : List OVSInterface → List String
  | [] => []
  | i :: rest =>
    match i.ipMap with
    | some _ => portKey bn i.ofport :: intfKeys bn rest
    | none => intfKeys bn rest

def portKeys (bn : String) : List OVSPort → List String
  | [] => []
  | p :: rest => intfKeys bn p.interfaces ++ portKeys bn rest

def bridgeKeys : List OVSBridge → List String
  | [] => []
  | br :: rest => portKeys br.name br.ports ++ bridgeKeys rest

/-- The aliasing invariant established by `fetchInterfaceLocked`: a snapshot
interface's non-nil IPMap is exactly the ipCache entry for its port key. -/
def AliasIntf (cache : IPCache) (bn : String) (i : OVSInterface) : Prop :=
  i.ipMap.isSome = true → alookup cache (portKey bn i.ofport) = i.ipMap

/-- The per-interface conclusion of claim C1: when the remote record holds a
matching interface, the merged IP map carries the union of the local and
remote key sets, the local value winning on every key present in both, the
remote value surviving on remote-only keys; with no match the interface is
left unchanged. -/
def mergedIntfProp (R : AgentInfo) (bn : String) (i iMerged : OVSInterface) : Prop :=
  match getCpIntf bn i R with
  | none => iMerged = i
  | some m => ∀ key,
      ipmLookupO iMerged.ipMap key =
        match ipmLookupO i.ipMap key with
        | some v => some v
        | none => ipmLookupO m.ipMap key

theorem ipmLookupO_getD (o : Option IPMap) (k : String) :
    ipmLookupO o k = alookup (o.getD []) k := by
  cases o <;> rfl

theorem getCpIntf_nodup (R : AgentInfo) (bn : String) (i m : OVSInterface)
    (hR : ∀ br ∈ R.ovsInfo.bridges, ∀ p ∈ br.ports, ∀ j ∈ p.interfaces,
      ((j.ipMap.getD []).map Prod.fst).Nodup)
    (h : getCpIntf bn i R = some m) :
    ((m.ipMap.getD []).map Prod.fst).Nodup := by
  unfold getCpIntf at h
  obtain ⟨br, hbr, hbr2⟩ := List.exists_of_findSome?_eq_some h
  by_cases hn : (br.name == bn) = true
  · rw [if_pos hn] at hbr2
    obtain ⟨p, hp, hp2⟩ := List.exists_of_findSome?_eq_some hbr2
    exact hR br hbr p hp m (List.mem_of_find?_eq_some hp2)
  · rw [if_neg hn] at hbr2
    cases hbr2

theorem mergeOneIntf_spec (R : AgentInfo) (bn : String) (cache : IPCache)
    (i : OVSInterface) (hA : AliasIntf cache bn i)
    (hRn : ∀ m, getCpIntf bn i R = some m →
      ((m.ipMap.getD []).map Prod.fst).Nodup) :
    mergedIntfProp R bn i (mergeOneIntf R bn cache i).1
    ∧ (∀ k, ¬k = portKey bn i.ofport →
        alookup (mergeOneIntf R bn cache i).2 k = alookup cache k)
    ∧ (i.ipMap = none → (mergeOneIntf R bn cache i).2 = cache) := by
  cases hm : getCpIntf bn i R with
  | none =>
    have he : mergeOneIntf R bn cache i = (i, cache) := by
      unfold mergeOneIntf; rw [hm]
    rw [he]
    refine ⟨?_, fun k _ => rfl, fun _ => rfl⟩
    unfold mergedIntfProp
    rw [hm]
  | some m =>
    have hnd := hRn m hm
    cases hi : i.ipMap with
    | none =>
      by_cases hs : (m.ipMap.getD []).isEmpty = true
      · have he : mergeOneIntf R bn cache i = (i, cache) := by
          unfold mergeOneIntf; rw [hm, hi]; simp [hs]
        rw [he]
        refine ⟨?_, fun k _ => rfl, fun _ => rfl⟩
        unfold mergedIntfProp
        rw [hm]
        intro key
        rw [hi]
        simp only [ipmLookupO_getD, Option.getD_none]
        cases hgd : m.ipMap.getD [] with
        | nil => rfl
        | cons a b => rw [hgd] at hs; cases hs
      · have he : mergeOneIntf R bn cache i =
            ({ i with ipMap := some (writeAll [] (m.ipMap.getD [])) }, cache) := by
          unfold mergeOneIntf; rw [hm, hi]; simp [hs]
        rw [he]
        refine ⟨?_, fun k _ => rfl, fun _ => rfl⟩
        unfold mergedIntfProp
        rw [hm]
        intro key
        rw [hi]
        simp only [ipmLookupO_getD, Option.getD_none, Option.getD_some]
        rw [alookup_writeAll _ _ _ hnd]
        cases alookup (m.ipMap.getD []) key <;> simp [alookup]
    | some captured =>
      have hl : alookup cache (portKey bn i.ofport) = some captured := by
        have h1 := hA (by rw [hi]; rfl)
        rw [hi] at h1
        exact h1
      have he : mergeOneIntf R bn cache i =
          ({ i with ipMap := some (addAbsent captured (m.ipMap.getD [])) },
            awrite cache (portKey bn i.ofport)
              (addAbsent captured (m.ipMap.getD []))) := by
        unfold mergeOneIntf; rw [hm, hi]; simp [hl]
      rw [he]
      refine ⟨?_, ?_, ?_⟩
      · unfold mergedIntfProp
        rw [hm]
        intro key
        rw [hi]
        simp only [ipmLookupO_getD, Option.getD_some]
        rw [alookup_addAbsent]
      · intro k hk
        rw [alookup_awrite, if_neg (fun he2 => hk he2.symm)]
      · intro hcontra
        cases hcontra

theorem intfKeys_mem (bn : String) (is : List OVSInterface) (j : OVSInterface)
    (hj : j ∈ is) (hs : j.ipMap.isSome = true) :
    portKey bn j.ofport ∈ intfKeys bn is := by
  induction is with
  | nil => cases hj
  | cons i rest ih =>
    rcases List.mem_cons.mp hj with rfl | hj'
    · obtain ⟨mj, hmj⟩ := Option.isSome_iff_exists.mp hs
      simp [intfKeys, hmj]
    · cases hii : i.ipMap with
      | some mi => simp only [intfKeys, hii]; exact List.mem_cons_of_mem _ (ih hj')
      | none => simp only [intfKeys, hii]; exact ih hj'

theorem portKeys_mem (bn : String) (ps : List OVSPort) (p : OVSPort)
    (j : OVSInterface) (hp : p ∈ ps) (hj : j ∈ p.interfaces)
    (hs : j.ipMap.isSome = true) :
    portKey bn j.ofport ∈ portKeys bn ps := by
  induction ps with
  | nil => cases hp
  | cons q rest ih =>
    rcases List.mem_cons.mp hp with rfl | hp'
    · exact List.mem_append_left _ (intfKeys_mem bn p.interfaces j hj hs)
    · exact List.mem_append_right _ (ih hp')

theorem bridgeKeys_mem (bs : List OVSBridge) (br : OVSBridge) (p : OVSPort)
    (j : OVSInterface) (hb : br ∈ bs) (hp : p ∈ br.ports) (hj : j ∈ p.interfaces)
    (hs : j.ipMap.isSome = true) :
    portKey br.name j.ofport ∈ bridgeKeys bs := by
  induction bs with
  | nil => cases hb
  | cons b rest ih =>
    rcases List.mem_cons.mp hb with rfl | hb'
    · exact List.mem_append_left _ (portKeys_mem br.name br.ports p j hp hj hs)
    · exact List.mem_append_right _ (ih hb')

theorem mergeIntfList_spec (R : AgentInfo) (bn : String)
    (is : List OVSInterface) : ∀ cache : IPCache,
    (∀ i ∈ is, AliasIntf cache bn i) →
    (intfKeys bn is).Nodup →
    (∀ i ∈ is, ∀ m, getCpIntf bn i R = some m →
      ((m.ipMap.getD []).map Prod.fst).Nodup) →
    List.Forall₂ (mergedIntfProp R bn) is (mergeIntfList R bn is cache).1
    ∧ (∀ k, k ∉ intfKeys bn is →
        alookup (mergeIntfList R bn is cache).2 k = alookup cache k) := by
  induction is with
  | nil =>
    intro cache _ _ _
    exact ⟨List.Forall₂.nil, fun k _ => rfl⟩
  | cons i rest ih =>
    intro cache hA hnd hRn
    obtain ⟨hprop, hoff, hnone⟩ := mergeOneIntf_spec R bn cache i
      (hA i (List.mem_cons_self i rest))
      (hRn i (List.mem_cons_self i rest))
    have hndrest : (intfKeys bn rest).Nodup := by
      cases hii : i.ipMap with
      | some mi =>
        rw [show intfKeys bn (i :: rest) = portKey bn i.ofport :: intfKeys bn rest
          from by simp [intfKeys, hii]] at hnd
        exact (List.nodup_cons.mp hnd).2
      | none =>
        rwa [show intfKeys bn (i :: rest) = intfKeys bn rest
          from by simp [intfKeys, hii]] at hnd
    have hArest : ∀ j ∈ rest, AliasIntf (mergeOneIntf R bn cache i).2 bn j := by
      intro j hj hjs
      cases hii : i.ipMap with
      | none =>
        rw [hnone hii]
        exact hA j (List.mem_cons_of_mem _ hj) hjs
      | some mi =>
        have hkeyi : portKey bn i.ofport ∉ intfKeys bn rest := by
          rw [show intfKeys bn (i :: rest) = portKey bn i.ofport :: intfKeys bn rest
            from by simp [intfKeys, hii]] at hnd
          exact (List.nodup_cons.mp hnd).1
        have hjkey : portKey bn j.ofport ∈ intfKeys bn rest :=
          intfKeys_mem bn rest j hj hjs
        have hne : ¬portKey bn j.ofport = portKey bn i.ofport :=
          fun he => hkeyi (he ▸ hjkey)
        rw [hoff _ hne]
        exact hA j (List.mem_cons_of_mem _ hj) hjs
    obtain ⟨hF, hC⟩ := ih (mergeOneIntf R bn cache i).2 hArest hndrest
      (fun j hj => hRn j (List.mem_cons_of_mem _ hj))
    constructor
    · show List.Forall₂ _ (i :: rest)
        ((mergeOneIntf R bn cache i).1 :: (mergeIntfList R bn rest
          (mergeOneIntf R bn cache i).2).1)
      exact List.Forall₂.cons hprop hF
    · intro k hk
      have hkrest : k ∉ intfKeys bn rest := by
        cases hii : i.ipMap with
        | some mi =>
          rw [show intfKeys bn (i :: rest) = portKey bn i.ofport :: intfKeys bn rest
            from by simp [intfKeys, hii]] at hk
          exact fun hmem => hk (List.mem_cons_of_mem _ hmem)
        | none =>
          rwa [show intfKeys bn (i :: rest) = intfKeys bn rest
            from by simp [intfKeys, hii]] at hk
      have step2 : alookup (mergeIntfList R bn (i :: rest) cache).2 k =
          alookup (mergeOneIntf R bn cache i).2 k := by
        show alookup (mergeIntfList R bn rest (mergeOneIntf R bn cache i).2).2 k = _
        exact hC k hkrest
      rw [step2]
      cases hii : i.ipMap with
      | none => rw [hnone hii]
      | some mi =>
        have hki : ¬k = portKey bn i.ofport := by
          rw [show intfKeys bn (i :: rest) = portKey bn i.ofport :: intfKeys bn rest
            from by simp [intfKeys, hii]] at hk
          exact fun he => hk (he ▸ List.mem_cons_self _ _)
        exact hoff k hki

theorem mergePortList_spec (R : AgentInfo) (bn : String) (ps : List OVSPort) :
    ∀ cache : IPCache,
    (∀ p ∈ ps, ∀ i ∈ p.interfaces, AliasIntf cache bn i) →
    (portKeys bn ps).Nodup →
    (∀ p ∈ ps, ∀ i ∈ p.interfaces, ∀ m, getCpIntf bn i R = some m →
      ((m.ipMap.getD []).map Prod.fst).Nodup) →
    List.Forall₂ (fun p p' => List.Forall₂ (mergedIntfProp R bn)
      p.interfaces p'.interfaces) ps (mergePortList R bn ps cache).1
    ∧ (∀ k, k ∉ portKeys bn ps →
        alookup (mergePortList R bn ps cache).2 k = alookup cache k) := by
  induction ps with
  | nil =>
    intro cache _ _ _
    exact ⟨List.Forall₂.nil, fun k _ => rfl⟩
  | cons p rest ih =>
    intro cache hA hnd hRn
    rw [show portKeys bn (p :: rest) = intfKeys bn p.interfaces ++ portKeys bn rest
      from rfl] at hnd
    obtain ⟨h1, h2, hdisj⟩ := List.nodup_append.mp hnd
    obtain ⟨hF, hC⟩ := mergeIntfList_spec R bn p.interfaces cache
      (hA p (List.mem_cons_self p rest)) h1
      (hRn p (List.mem_cons_self p rest))
    have hArest : ∀ q ∈ rest, ∀ j ∈ q.interfaces,
        AliasIntf (mergeIntfList R bn p.interfaces cache).2 bn j := by
      intro q hq j hj hjs
      have hjkey : portKey bn j.ofport ∈ portKeys bn rest :=
        portKeys_mem bn rest q j hq hj hjs
      have hnotin : portKey bn j.ofport ∉ intfKeys bn p.interfaces :=
        fun hmem => hdisj hmem hjkey
      rw [hC _ hnotin]
      exact hA q (List.mem_cons_of_mem _ hq) j hj hjs
    obtain ⟨hFr, hCr⟩ := ih (mergeIntfList R bn p.interfaces cache).2 hArest h2
      (fun q hq => hRn q (List.mem_cons_of_mem _ hq))
    constructor
    · show List.Forall₂ _ (p :: rest)
        ({ p with interfaces := (mergeIntfList R bn p.interfaces cache).1 } ::
          (mergePortList R bn rest (mergeIntfList R bn p.interfaces cache).2).1)
      exact List.Forall₂.cons hF hFr
    · intro k hk
      rw [show portKeys bn (p :: rest) = intfKeys bn p.interfaces ++ portKeys bn rest
        from rfl] at hk
      have hk1 : k ∉ intfKeys bn p.interfaces := fun h => hk (List.mem_append_left _ h)
      have hk2 : k ∉ portKeys bn rest := fun h => hk (List.mem_append_right _ h)
      have step2 : alookup (mergePortList R bn (p :: rest) cache).2 k =
          alookup (mergeIntfList R bn p.interfaces cache).2 k := by
        show alookup (mergePortList R bn rest
          (mergeIntfList R bn p.interfaces cache).2).2 k = _
        exact hCr k hk2
      rw [step2]
      exact hC k hk1

theorem mergeBridgeList_spec (R : AgentInfo) (bs : List OVSBridge) :
    ∀ cache : IPCache,
    (∀ br ∈ bs, ∀ p ∈ br.ports, ∀ i ∈ p.interfaces, AliasIntf cache br.name i) →
    (bridgeKeys bs).Nodup →
    (∀ br ∈ bs, ∀ p ∈ br.ports, ∀ i ∈ p.interfaces, ∀ m,
      getCpIntf br.name i R = some m → ((m.ipMap.getD []).map Prod.fst).Nodup) →
    List.Forall₂ (fun br br' => br'.name = br.name ∧
      List.Forall₂ (fun p p' => List.Forall₂ (mergedIntfProp R br.name)
        p.interfaces p'.interfaces) br.ports br'.ports)
      bs (mergeBridgeList R bs cache).1
    ∧ (∀ k, k ∉ bridgeKeys bs →
        alookup (mergeBridgeList R bs cache).2 k = alookup cache k) := by
  induction bs with
  | nil =>
    intro cache _ _ _
    exact ⟨List.Forall₂.nil, fun k _ => rfl⟩
  | cons br rest ih =>
    intro cache hA hnd hRn
    rw [show bridgeKeys (br :: rest) = portKeys br.name br.ports ++ bridgeKeys rest
      from rfl] at hnd
    obtain ⟨h1, h2, hdisj⟩ := List.nodup_append.mp hnd
    obtain ⟨hF, hC⟩ := mergePortList_spec R br.name br.ports cache
      (hA br (List.mem_cons_self br rest)) h1
      (hRn br (List.mem_cons_self br rest))
    have hArest : ∀ b ∈ rest, ∀ p ∈ b.ports, ∀ j ∈ p.interfaces,
        AliasIntf (mergePortList R br.name br.ports cache).2 b.name j := by
      intro b hb p hp j hj hjs
      have hjkey : portKey b.name j.ofport ∈ bridgeKeys rest :=
        bridgeKeys_mem rest b p j hb hp hj hjs
      have hnotin : portKey b.name j.ofport ∉ portKeys br.name br.ports :=
        fun hmem => hdisj hmem hjkey
      rw [hC _ hnotin]
      exact hA b (List.mem_cons_of_mem _ hb) p hp j hj hjs
    obtain ⟨hFr, hCr⟩ := ih (mergePortList R br.name br.ports cache).2 hArest h2
      (fun b hb => hRn b (List.mem_cons_of_mem _ hb))
    constructor
    · show List.Forall₂ _ (br :: rest)
        ({ br with ports := (mergePortList R br.name br.ports cache).1 } ::
          (mergeBridgeList R rest (mergePortList R br.name br.ports cache).2).1)
      exact List.Forall₂.cons ⟨rfl, hF⟩ hFr
    · intro k hk
      rw [show bridgeKeys (br :: rest) = portKeys br.name br.ports ++ bridgeKeys rest
        from rfl] at hk
      have hk1 : k ∉ portKeys br.name br.ports :=
        fun h => hk (List.mem_append_left _ h)
      have hk2 : k ∉ bridgeKeys rest := fun h => hk (List.mem_append_right _ h)
      have step2 : alookup (mergeBridgeList R (br :: rest) cache).2 k =
          alookup (mergePortList R br.name br.ports cache).2 k := by
        show alookup (mergeBridgeList R rest
          (mergePortList R br.name br.ports cache).2).2 k = _
        exact hCr k hk2
      rw [step2]
      exact hC k hk1

/-- C1: for every remote AgentInfo R, every freshly built snapshot L (its
bridge/ofport cache keys distinct and its non-nil IPMaps aliasing the ipCache,
as `fetchInterfaceLocked` establishes) and remote IP maps without duplicate
keys (Go maps), after `mergeAgentInfo` every interface of L with a matching
interface in R (same bridge name, same Ofport — the match `getCpIntf` selects)
carries the union of the two IP-map key sets, L's value winning on every key
present in both and R's value surviving on keys only it has; interfaces
without a match are unchanged. -/
theorem c1_merge_never_loses_remote_ips (L R : AgentInfo) (cache : IPCache)
    (halias : ∀ br ∈ L.ovsInfo.bridges, ∀ p ∈ br.ports, ∀ i ∈ p.interfaces,
      AliasIntf cache br.name i)
    (hnd : (bridgeKeys L.ovsInfo.bridges).Nodup)
    (hR : ∀ br ∈ R.ovsInfo.bridges, ∀ p ∈ br.ports, ∀ i ∈ p.interfaces,
      ((i.ipMap.getD []).map Prod.fst).Nodup) :
    List.Forall₂ (fun br br' => br'.name = br.name ∧
      List.Forall₂ (fun p p' => List.Forall₂ (mergedIntfProp R br.name)
        p.interfaces p'.interfaces) br.ports br'.ports)
      L.ovsInfo.bridges (mergeAgentInfo L R cache).1.ovsInfo.bridges := by
  have h := mergeBridgeList_spec R L.ovsInfo.bridges cache halias hnd
    (fun br _ p _ i _ m hm => getCpIntf_nodup R br.name i m hR hm)
  exact h.1

instance (cache : IPCache) (bn : String) (i : OVSInterface) :
    Decidable (AliasIntf cache bn i) := by
  unfold AliasIntf
  infer_instance

theorem assertString_ok_elim (v : Option OVSValue) (s : String)
    (h : assertString v = .ok s) : v = some (.str s) := by
  cases v with
  | none => cases h
  | some w =>
    cases w with
    | str s2 => injection h with h1; rw [h1]
    | num n => cases h
    | uuid x => cases h
    | set l => cases h
    | vmap l => cases h

theorem assertStringMap_ok_elim (v : Option OVSValue) (m : List (String × String))
    (h : assertStringMap v = .ok m) :
    ∃ pairs, v = some (.vmap pairs) ∧ buildStringMap pairs [] = .ok m := by
  cases v with
  | none => cases h
  | some w =>
    cases w with
    | vmap pairs => exact ⟨pairs, rfl, h⟩
    | str s2 => cases h
    | num n => cases h
    | uuid x => cases h
    | set l => cases h

/-- Every interface built by `fetchInterfaceLocked` satisfies the aliasing
invariant assumed by C1: its non-nil IPMap is the ipCache entry for its own
port key. -/
theorem fetchInterfaceLocked_alias (c : OVSDBCache) (ipc : IPCache)
    (u bn : String) (i : OVSInterface)
    (h : fetchInterfaceLocked c ipc u bn = .ok (some i)) : AliasIntf ipc bn i := by
  cases hrow : rowGet c "Interface" u with
  | none =>
    have he : fetchInterfaceLocked c ipc u bn = .ok none := by
      simp [fetchInterfaceLocked, hrow]
    rw [he] at h
    injection h with h1
    cases h1
  | some row =>
    by_cases herr : ifHasError (row.fieldGet "error") = true
    · have he : fetchInterfaceLocked c ipc u bn = .ok none := by
        simp [fetchInterfaceLocked, hrow, herr]
      rw [he] at h
      injection h with h1
      cases h1
    · simp only [Bool.not_eq_true] at herr
      cases hn : assertString (row.fieldGet "name") with
      | err m2 =>
        have he : fetchInterfaceLocked c ipc u bn = .err m2 := by
          simp [fetchInterfaceLocked, hrow, herr, hn, FetchResult.bind]
        rw [he] at h; cases h
      | panicked =>
        have he : fetchInterfaceLocked c ipc u bn = .panicked := by
          simp [fetchInterfaceLocked, hrow, herr, hn, FetchResult.bind]
        rw [he] at h; cases h
      | ok nm =>
        cases ht : assertString (row.fieldGet "type") with
        | err m2 =>
          have he : fetchInterfaceLocked c ipc u bn = .err m2 := by
            simp [fetchInterfaceLocked, hrow, herr, hn, ht, FetchResult.bind]
          rw [he] at h; cases h
        | panicked =>
          have he : fetchInterfaceLocked c ipc u bn = .panicked := by
            simp [fetchInterfaceLocked, hrow, herr, hn, ht, FetchResult.bind]
          rw [he] at h; cases h
        | ok ty =>
          cases hx : assertStringMap (row.fieldGet "external_ids") with
          | err m2 =>
            have he : fetchInterfaceLocked c ipc u bn = .err m2 := by
              simp [fetchInterfaceLocked, hrow, herr, hn, ht, hx, FetchResult.bind]
            rw [he] at h; cases h
          | panicked =>
            have he : fetchInterfaceLocked c ipc u bn = .panicked := by
              simp [fetchInterfaceLocked, hrow, herr, hn, ht, hx, FetchResult.bind]
            rw [he] at h; cases h
          | ok ext =>
            have hf1 := assertString_ok_elim _ _ hn
            have hf2 := assertString_ok_elim _ _ ht
            obtain ⟨pairs, hf3, hb⟩ := assertStringMap_ok_elim _ _ hx
            have heq := fetchInterfaceLocked_eq_ok c ipc u bn row nm ty pairs ext
              hrow herr hf1 hf2 hf3 hb
            rw [heq] at h
            injection h with h1
            injection h1 with h2
            subst h2
            intro hsome
            cases hof : row.fieldGet "ofport" with
            | none => simp [resolveOfport, hof] at hsome ⊢
            | some v =>
              cases v with
              | num f =>
                by_cases hf : f ≥ 0
                · simp [resolveOfport, hof, hf]
                · simp [resolveOfport, hof, hf] at hsome
              | str s => simp [resolveOfport, hof] at hsome ⊢
              | uuid x => simp [resolveOfport, hof] at hsome ⊢
              | set l => simp [resolveOfport, hof] at hsome ⊢
              | vmap l => simp [resolveOfport, hof] at hsome ⊢

/-- The concrete fresh snapshot of the C1 witness (what `getAgentInfo` builds
from `syncOvs` and `syncIpc`, its IPMap aliasing the cache entry). -/
def c1L : AgentInfo :=
  { name := "agent1",
    ovsInfo :=
      { bridges :=
          [{ name := "br0",
             ports :=
               [{ name := "p0",
                  interfaces :=
                    [{ name := "eth0", ofport := 5,
                       ipMap := some [("10.0.0.1", 7)] }] }] }] } }

/-- C1 witness: the union property on a concrete snapshot and remote record. -/
theorem c1_merge_never_loses_remote_ips_witness :
    List.Forall₂ (fun br br' => br'.name = br.name ∧
      List.Forall₂ (fun p p' => List.Forall₂ (mergedIntfProp syncRemote br.name)
        p.interfaces p'.interfaces) br.ports br'.ports)
      c1L.ovsInfo.bridges (mergeAgentInfo c1L syncRemote syncIpc).1.ovsInfo.bridges :=
  c1_merge_never_loses_remote_ips c1L syncRemote syncIpc
    (by decide) (by decide) (by decide)

end Everoute
